import Mathlib

/- Verification of the robot-consortium orchestration core.

   This file is a shallow embedding of the TypeScript sources
   (src/types.ts, src/state.ts, src/agents.ts, src/orchestrator.ts,
   src/cli.ts and the phase modules src/phases/{oink,build,ci-check}.ts)
   into Lean 4.  Pure computations (verdict parsing, prompt building,
   scheduling decisions) are translated directly; effectful steps
   (spawning an external agent process, git/CI commands, reading the
   console) are modelled by explicit environment parameters carrying the
   outcome the external world would produce, and the persisted
   `state.json` document is modelled by a `ConsortiumState` value that
   every mutator threads explicitly (the store's read-modify-write
   discipline).  Timestamps written by `saveState` are modelled by a
   `now : String` parameter. -/

set_option maxRecDepth 16384

namespace RobotConsortium

/-- `Phase` enumeration from src/types.ts. -/
inductive Phase where
  | INIT
  | SURF
  | PLAN
  | BUILD
  | OINK
  | PR
  | CI_CHECK
  | DONE
  | FAILED
deriving DecidableEq, Repr

/-- `TaskStatus` from src/types.ts. -/
inductive TaskStatus where
  | pending
  | in_progress
  | completed
  | failed
  | blocked
deriving DecidableEq, Repr

/-- `Task` from src/types.ts. -/
structure Task where
  id : String
  description : String
  status : TaskStatus
  assignedTo : Option String := none
  blockedBy : Option (List String) := none
  output : Option String := none
  error : Option String := none
deriving DecidableEq, Repr

/-- `Question` from src/types.ts. -/
structure Question where
  id : String
  «from» : String
  phase : Phase
  question : String
  options : Option (List String) := none
  answer : Option String := none
  answeredAt : Option String := none
deriving DecidableEq, Repr

/-- `CostEntry` from src/types.ts.  The source stores `costUsd` as a JS
number; no verified claim performs cost arithmetic, so the field is
modelled as an integer number of micro-dollars. -/
structure CostEntry where
  phase : Phase
  agent : String
  tokens : Nat
  costUsd : Int
  timestamp : String
deriving DecidableEq, Repr

/-- `ConsortiumState` from src/types.ts: the persisted `state.json`
document.  The TS `questions` object with `pending`/`answered` arrays is
flattened into two fields. -/
structure ConsortiumState where
  id : String
  description : String
  phase : Phase
  createdAt : String
  updatedAt : String
  workingDirectory : String
  tasks : List Task
  questionsPending : List Question
  questionsAnswered : List Question
  costs : List CostEntry
  findings : List String
  plans : List String
  reviews : List String
  finalPlan : Option String := none
  prUrl : Option String := none
  prNumber : Option Nat := none
  ciCheckAttempts : Option Nat := none
  branchName : Option String := none
  surferFocuses : Option (List String) := none
  plannerPerspectives : Option (List String) := none
deriving DecidableEq, Repr

/-- `saveState` from src/state.ts: stamps `updatedAt` and writes the
whole document.  The write is modelled by returning the stored value. -/
def saveState (now : String) (state : ConsortiumState) : ConsortiumState :=
  { state with updatedAt := now }

/-- `updatePhase` from src/state.ts: load the persisted run (`none`
models a missing `state.json`, on which the source throws), set the
`phase` field and save. -/
def updatePhase (now : String) (stored : Option ConsortiumState) (phase : Phase) :
    Except String ConsortiumState :=
  match stored with
  | none => .error "No active consortium found"
  | some s => .ok (saveState now { s with phase := phase })

/-- In-memory core of `updatePhase`, used by the phase models after the
load has already been checked. -/
def updatePhaseRun (now : String) (s : ConsortiumState) (phase : Phase) : ConsortiumState :=
  saveState now { s with phase := phase }

/-- `initializeState` from src/state.ts: builds the fresh run document
(creation and update timestamps are both taken at creation time) and
saves it. -/
def initializeState (now newId workingDir description : String)
    (branchName : Option String) : ConsortiumState :=
  saveState now
    { id := newId
      description := description
      phase := .INIT
      createdAt := now
      updatedAt := now
      workingDirectory := workingDir
      tasks := []
      questionsPending := []
      questionsAnswered := []
      costs := []
      findings := []
      plans := []
      reviews := []
      branchName := branchName }

/-- `addTask` from src/state.ts: appends a task whose id is generated
from the current task count (`task-${state.tasks.length + 1}`). -/
def addTask (now : String) (s : ConsortiumState) (description : String)
    (blockedBy : List String) : ConsortiumState :=
  let newTask : Task :=
    { id := "task-" ++ toString (s.tasks.length + 1)
      description := description
      status := .pending
      blockedBy := some blockedBy }
  saveState now { s with tasks := s.tasks ++ [newTask] }

/-- `Array.prototype.findIndex` + element replacement used by
`updateTask` in src/state.ts: replace the first task whose id matches,
or `none` when no task matches (the source throws there). -/
def setTaskStatus (tasks : List Task) (taskId : String) (f : Task → Task) :
    Option (List Task) :=
  match tasks with
  | [] => none
  | t :: ts =>
    if t.id == taskId then some (f t :: ts)
    else (setTaskStatus ts taskId f).map (fun ts' => t :: ts')

/-- `updateTask` from src/state.ts: read-modify-write of one task record
selected by id; missing id models the thrown `Task not found` error. -/
def updateTask (now : String) (s : ConsortiumState) (taskId : String) (f : Task → Task) :
    Except String ConsortiumState :=
  match setTaskStatus s.tasks taskId f with
  | none => .error ("Task " ++ taskId ++ " not found")
  | some tasks => .ok (saveState now { s with tasks := tasks })

/-- Status of the first task with the given id (how the source observes
a task: `state.tasks.find(...)`). -/
def statusOf (tasks : List Task) (taskId : String) : Option TaskStatus :=
  (tasks.find? (fun t => t.id == taskId)).map Task.status

/- String primitives.  The JS string operations the source uses
(`toUpperCase`, `includes`, `split`, `join`, `trim`) are implemented
here over the character list underlying a `String`, because they are
used on ASCII marker text and list recursion is what the embedding can
evaluate.  Each mirrors the JS operation's behaviour on the inputs the
program feeds it. -/

/-- `JS String.prototype.toUpperCase` (ASCII range, as used on the
verdict markers). -/
def toUpperStr (s : String) : String :=
  String.mk (s.data.map Char.toUpper)

/-- `JS String.prototype.includes` on character sequences. -/
def listContainsSeq (pat : List Char) : List Char → Bool
  | [] => pat.isEmpty
  | c :: rest => pat.isPrefixOf (c :: rest) || listContainsSeq pat rest

/-- `haystack.includes(needle)` from JS. -/
def containsSubstr (s pat : String) : Bool :=
  listContainsSeq pat.data s.data

/-- `JS String.prototype.split` with a single-character separator. -/
def splitOnChar (sep : Char) : List Char → List (List Char)
  | [] => [[]]
  | c :: rest =>
    if c = sep then [] :: splitOnChar sep rest
    else
      match splitOnChar sep rest with
      | [] => [[c]]
      | g :: gs => (c :: g) :: gs

/-- `output.split('\n')` from JS. -/
def splitLines (s : String) : List String :=
  (splitOnChar '\n' s.data).map String.mk

/-- `JS Array.prototype.join(sep)`. -/
def joinWith (sep : String) : List String → String
  | [] => ""
  | [x] => x
  | x :: y :: xs => x ++ sep ++ joinWith sep (y :: xs)

/-- `JS String.prototype.trim`. -/
def trimStr (s : String) : String :=
  String.mk (((s.data.dropWhile Char.isWhitespace).reverse.dropWhile Char.isWhitespace).reverse)

/-- The `output.split('\n').slice(0, 10).join('\n')` scan inside
`parseVerdict` (src/phases/oink.ts). -/
def firstTenLines (output : String) : String :=
  joinWith "\n" ((splitLines output).take 10)

/-- `parseVerdict` from src/phases/oink.ts: explicit verdict markers
first, then a PASS/FAIL scan of the first ten lines, defaulting to pass
when unclear. -/
def parseVerdict (output : String) : Bool :=
  let upperOutput := toUpperStr output
  if containsSubstr upperOutput "VERDICT: PASS" || containsSubstr upperOutput "# PASS" then
    true
  else if containsSubstr upperOutput "VERDICT: FAIL" || containsSubstr upperOutput "# FAIL" then
    false
  else
    let firstLines := toUpperStr (firstTenLines output)
    if containsSubstr firstLines "PASS" && !containsSubstr firstLines "FAIL" then
      true
    else if containsSubstr firstLines "FAIL" then
      false
    else
      true

/-- C8: a verifier output containing none of the recognized markers
('VERDICT: PASS', 'VERDICT: FAIL', '# PASS', '# FAIL' anywhere, and
neither 'PASS' nor 'FAIL' within the first ten lines) is parsed as a
pass verdict rather than an error: `parseVerdict` falls through every
marker branch to the optimistic default `true`. -/
theorem parseVerdict_no_markers_defaults_pass (output : String)
    (h1 : containsSubstr (toUpperStr output) "VERDICT: PASS" = false)
    (h2 : containsSubstr (toUpperStr output) "# PASS" = false)
    (h3 : containsSubstr (toUpperStr output) "VERDICT: FAIL" = false)
    (h4 : containsSubstr (toUpperStr output) "# FAIL" = false)
    (h5 : containsSubstr (toUpperStr (firstTenLines output)) "PASS" = false)
    (h6 : containsSubstr (toUpperStr (firstTenLines output)) "FAIL" = false) :
    parseVerdict output = true := by
  simp [parseVerdict, h1, h2, h3, h4, h5, h6]

/-- Witness for C8: a concrete marker-free output parses as pass. -/
theorem parseVerdict_no_markers_defaults_pass_witness :
    containsSubstr (toUpperStr "All checks look reasonable.") "VERDICT: PASS" = false ∧
    parseVerdict "All checks look reasonable." = true :=
  ⟨by decide,
   parseVerdict_no_markers_defaults_pass "All checks look reasonable."
     (by decide) (by decide) (by decide) (by decide) (by decide) (by decide)⟩

/-- C10: `updatePhase` rewrites only the `phase` field and the
`updatedAt` stamp of the persisted run; every other field of the stored
document survives the call unchanged. -/
theorem updatePhase_frame (now : String) (s : ConsortiumState) (p : Phase) :
    ∃ s', updatePhase now (some s) p = .ok s' ∧
      s'.phase = p ∧ s'.updatedAt = now ∧
      s'.id = s.id ∧ s'.description = s.description ∧
      s'.createdAt = s.createdAt ∧ s'.workingDirectory = s.workingDirectory ∧
      s'.tasks = s.tasks ∧ s'.questionsPending = s.questionsPending ∧
      s'.questionsAnswered = s.questionsAnswered ∧ s'.costs = s.costs ∧
      s'.findings = s.findings ∧ s'.plans = s.plans ∧ s'.reviews = s.reviews ∧
      s'.finalPlan = s.finalPlan ∧ s'.prUrl = s.prUrl ∧
      s'.prNumber = s.prNumber ∧ s'.ciCheckAttempts = s.ciCheckAttempts ∧
      s'.branchName = s.branchName ∧ s'.surferFocuses = s.surferFocuses ∧
      s'.plannerPerspectives = s.plannerPerspectives := by
  refine ⟨saveState now { s with phase := p }, rfl, ?_⟩
  simp [saveState]

/- ---------------------------------------------------------------------
   Agent dispatcher (src/agents.ts)
   --------------------------------------------------------------------- -/

/-- `AgentRole` from src/types.ts. -/
inductive AgentRole where
  | robotKing
  | surfer
  | cityPlanner
  | dawg
  | pig
deriving DecidableEq, Repr

/-- The role strings used in agent ids. -/
def AgentRole.str : AgentRole → String
  | .robotKing => "robot-king"
  | .surfer => "surfer"
  | .cityPlanner => "city-planner"
  | .dawg => "dawg"
  | .pig => "pig"

/-- `Model` from src/types.ts. -/
inductive Model where
  | opus
  | sonnet
  | haiku
deriving DecidableEq, Repr

/-- `AGENT_MODELS` from src/types.ts: every role is currently mapped to
opus. -/
def AGENT_MODELS : AgentRole → Model := fun _ => .opus

/-- `AgentConfig` from src/types.ts. -/
structure AgentConfig where
  role : AgentRole
  model : Model
  id : String
  focus : Option String := none
deriving DecidableEq, Repr

/-- `createAgentConfig` from src/agents.ts. -/
def createAgentConfig (role : AgentRole) (index : Nat) (focus : Option String := none) :
    AgentConfig :=
  { role := role
    model := AGENT_MODELS role
    id := role.str ++ "-" ++ toString index
    focus := focus }

/-- `AgentResult` from src/agents.ts. -/
structure AgentResult where
  success : Bool
  output : String
  error : Option String := none
deriving DecidableEq, Repr

/-- `AgentOptions` from src/agents.ts (the fields the dispatcher hands
to the external executor; display/verbose flags only affect logging). -/
structure AgentOptions where
  workingDir : String
  prompt : String
  allowedTools : List String := []
deriving DecidableEq, Repr

/-- How one spawned `claude` process ends, as observed by `runAgent`'s
event handlers: either the process cannot start (the `error` event) or
it exits with a code after producing stdout/stderr text.  This is the
environment parameter standing for the external agent executor. -/
inductive ExecOutcome where
  | spawnError (message : String)
  | exited (code : Int) (stdout stderr : String)
deriving DecidableEq, Repr

/-- Does the outcome represent a unit failure (cannot start, or abnormal
exit)? -/
def execFailed : ExecOutcome → Bool
  | .spawnError _ => true
  | .exited code _ _ => code != 0

/-- `runAgent` from src/agents.ts: resolves (never rejects) with a
uniform result shape; exit code 0 is a success carrying trimmed stdout,
a nonzero exit carries stderr (or a fallback message), and a spawn
error carries the error message. -/
def runAgent (outcome : ExecOutcome) : AgentResult :=
  match outcome with
  | .spawnError message => { success := false, output := "", error := some message }
  | .exited code stdout stderr =>
    if code = 0 then
      { success := true, output := trimStr stdout }
    else
      { success := false
        output := trimStr stdout
        error := some (if stderr = "" then "Process exited with code " ++ toString code else stderr) }

/-- `runAgentsInParallel` from src/agents.ts: checks the two input
arrays have the same length (else throws), then starts every unit and
joins on all of them (`Promise.all`), returning the per-unit results in
input order.  `outcomes` is the environment: one process outcome per
dispatched unit, in input order. -/
def runAgentsInParallel (agents : List AgentConfig) (optionsPerAgent : List AgentOptions)
    (outcomes : List ExecOutcome) : Except String (List AgentResult) :=
  if agents.length ≠ optionsPerAgent.length then
    .error "Agents and options arrays must have the same length"
  else
    .ok (outcomes.map runAgent)

/-- The `Promise.all` join modelled operationally: each unit, when it
completes, stores its result in its own slot of an `n`-slot array;
`events` is the completion log in wall-clock completion order. -/
def completionGather (n : Nat) (events : List (Nat × AgentResult)) :
    List (Option AgentResult) :=
  events.foldl (fun slots e => slots.set e.1 (some e.2)) (List.replicate n none)

/-- The last value assigned to slot `j` by a completion log. -/
def lastAssign : List (Nat × AgentResult) → Nat → Option AgentResult
  | [], _ => none
  | e :: es, j =>
    match lastAssign es j with
    | some r => some r
    | none => if e.1 = j then some e.2 else none

lemma completionGather_foldl_length (events : List (Nat × AgentResult))
    (init : List (Option AgentResult)) :
    (events.foldl (fun slots e => slots.set e.1 (some e.2)) init).length = init.length := by
  induction events generalizing init with
  | nil => rfl
  | cons e es ih => simpa using ih (init.set e.1 (some e.2))

lemma completionGather_foldl_getElem? (events : List (Nat × AgentResult))
    (init : List (Option AgentResult)) (j : Nat) :
    (events.foldl (fun slots e => slots.set e.1 (some e.2)) init)[j]? =
      match lastAssign events j with
      | some r => if j < init.length then some (some r) else none
      | none => init[j]? := by
  induction events generalizing init with
  | nil => simp [lastAssign]
  | cons e es ih =>
    rw [List.foldl_cons, ih]
    rcases h : lastAssign es j with _ | r
    · by_cases hc : e.1 = j
      · subst hc
        simp only [lastAssign, h, if_pos rfl]
        by_cases hj : e.1 < init.length
        · rw [List.getElem?_set_self (by simpa using hj)]
          simp [hj]
        · rw [List.getElem?_eq_none (by simpa using Nat.le_of_not_lt hj)]
          simp [hj]
      · simp only [lastAssign, h, if_neg hc]
        rw [List.getElem?_set_ne hc]
    · simp [lastAssign, h, List.length_set]

lemma lastAssign_map_notMem (order : List Nat) (f : Nat → AgentResult) (j : Nat)
    (h : j ∉ order) :
    lastAssign (order.map fun i => (i, f i)) j = none := by
  induction order with
  | nil => rfl
  | cons a rest ih =>
    have hj : j ∉ rest := fun hc => h (List.mem_cons_of_mem _ hc)
    have ha : a ≠ j := fun hc => h (hc ▸ List.mem_cons_self a rest)
    simp [lastAssign, ih hj, ha]

lemma lastAssign_map_mem (order : List Nat) (f : Nat → AgentResult) (j : Nat)
    (hmem : j ∈ order) :
    lastAssign (order.map fun i => (i, f i)) j = some (f j) := by
  induction order with
  | nil => cases hmem
  | cons a rest ih =>
    by_cases hr : j ∈ rest
    · simp [lastAssign, ih hr]
    · have ha : a = j := by
        rcases List.mem_cons.mp hmem with h | h
        · exact h.symm
        · exact absurd h hr
      simp [lastAssign, lastAssign_map_notMem rest f j hr, ha]

lemma completionGather_perm (n : Nat) (f : Nat → AgentResult) (order : List Nat)
    (hperm : order.Perm (List.range n)) :
    completionGather n (order.map fun i => (i, f i)) =
      (List.range n).map (fun i => some (f i)) := by
  have hmem : ∀ j, j ∈ order ↔ j < n := by
    intro j
    rw [hperm.mem_iff, List.mem_range]
  apply List.ext_getElem?
  intro j
  rw [completionGather, completionGather_foldl_getElem?]
  by_cases hj : j < n
  · rw [lastAssign_map_mem order f j ((hmem j).mpr hj)]
    simp [hj, List.getElem?_map, List.getElem?_range hj]
  · rw [lastAssign_map_notMem order f j (fun hc => hj ((hmem j).mp hc))]
    have h1 : (List.replicate n (none : Option AgentResult))[j]? = none := by
      rw [List.getElem?_eq_none]
      simpa using Nat.le_of_not_lt hj
    have h2 : ((List.range n).map (fun i => some (f i)))[j]? = none := by
      rw [List.getElem?_eq_none]
      simpa using Nat.le_of_not_lt hj
    rw [h1, h2]

/-- C3: for every dispatch batch, `runAgentsInParallel` (with matching
agent/options array lengths and one process outcome per unit) returns
exactly N results whose i-th element is the result of the i-th input
unit; the `Promise.all` join yields those results in input order for
every completion order (any permutation of unit indices); and a unit
that cannot start (spawn error) or exits abnormally (nonzero code)
yields an in-place result with `success = false` instead of aborting
the batch or cancelling siblings. -/
theorem runAgentsInParallel_all_complete_in_order
    (agents : List AgentConfig) (optionsPerAgent : List AgentOptions)
    (outcomes : List ExecOutcome) (order : List Nat)
    (hlen : agents.length = optionsPerAgent.length)
    (hout : outcomes.length = agents.length)
    (hperm : order.Perm (List.range agents.length)) :
    ∃ results, runAgentsInParallel agents optionsPerAgent outcomes = .ok results ∧
      results.length = agents.length ∧
      (∀ i, i < outcomes.length → results[i]? = some (runAgent (outcomes.getD i (.spawnError "")))) ∧
      completionGather agents.length
          (order.map fun i => (i, runAgent (outcomes.getD i (.spawnError "")))) =
        results.map some ∧
      (∀ i, i < outcomes.length → execFailed (outcomes.getD i (.spawnError "")) = true →
        ∃ r, results[i]? = some r ∧ r.success = false) := by
  refine ⟨outcomes.map runAgent, ?_, by simpa using hout, ?_, ?_, ?_⟩
  · simp [runAgentsInParallel, hlen]
  · intro i hi
    rw [List.getElem?_map, List.getElem?_eq_getElem hi]
    simp [List.getD, List.getElem?_eq_getElem hi]
  · rw [completionGather_perm agents.length _ order hperm]
    apply List.ext_getElem?
    intro j
    by_cases hj : j < agents.length
    · have hj' : j < outcomes.length := hout ▸ hj
      rw [List.getElem?_map, List.getElem?_range hj, List.getElem?_map, List.getElem?_map,
        List.getElem?_eq_getElem hj']
      simp [List.getD, List.getElem?_eq_getElem hj']
    · have h1 : ((List.range agents.length).map
          (fun i => some (runAgent (outcomes.getD i (.spawnError "")))))[j]? = none := by
        rw [List.getElem?_eq_none]
        simpa using Nat.le_of_not_lt hj
      have h2 : ((outcomes.map runAgent).map some)[j]? = none := by
        rw [List.getElem?_eq_none]
        simpa [hout] using Nat.le_of_not_lt hj
      rw [h1, h2]
  · intro i hi hfail
    refine ⟨runAgent (outcomes.getD i (.spawnError "")), ?_, ?_⟩
    · rw [List.getElem?_map, List.getElem?_eq_getElem hi]
      simp [List.getD, List.getElem?_eq_getElem hi]
    · rcases hcase : outcomes.getD i (.spawnError "") with m | ⟨code, stdout, stderr⟩
      · simp [runAgent]
      · rw [hcase] at hfail
        have hcode : code ≠ 0 := by
          simpa [execFailed] using hfail
        simp [runAgent, hcode]

/-- Witness for C3: a two-unit batch where the second unit fails to
start and finishes first still yields both results in input order. -/
theorem runAgentsInParallel_all_complete_in_order_witness :
    ([createAgentConfig .pig 1 (some "tests"), createAgentConfig .pig 2 (some "code-review")].length =
        [({workingDir := "/w", prompt := "a"} : AgentOptions),
         ({workingDir := "/w", prompt := "b"} : AgentOptions)].length) ∧
    (∃ results,
      runAgentsInParallel
        [createAgentConfig .pig 1 (some "tests"), createAgentConfig .pig 2 (some "code-review")]
        [({workingDir := "/w", prompt := "a"} : AgentOptions),
         ({workingDir := "/w", prompt := "b"} : AgentOptions)]
        [.exited 0 "PASS" "", .spawnError "spawn claude ENOENT"] = .ok results ∧
      results.length = 2 ∧
      (∀ i, i < ([ExecOutcome.exited 0 "PASS" "", ExecOutcome.spawnError "spawn claude ENOENT"]).length →
        results[i]? = some (runAgent (([ExecOutcome.exited 0 "PASS" "",
          ExecOutcome.spawnError "spawn claude ENOENT"]).getD i (.spawnError "")))) ∧
      completionGather 2
          ([1, 0].map fun i => (i, runAgent (([ExecOutcome.exited 0 "PASS" "",
            ExecOutcome.spawnError "spawn claude ENOENT"]).getD i (.spawnError "")))) =
        results.map some ∧
      (∀ i, i < ([ExecOutcome.exited 0 "PASS" "", ExecOutcome.spawnError "spawn claude ENOENT"]).length →
        execFailed (([ExecOutcome.exited 0 "PASS" "",
          ExecOutcome.spawnError "spawn claude ENOENT"]).getD i (.spawnError "")) = true →
        ∃ r, results[i]? = some r ∧ r.success = false)) :=
  ⟨by decide,
   runAgentsInParallel_all_complete_in_order
     [createAgentConfig .pig 1 (some "tests"), createAgentConfig .pig 2 (some "code-review")]
     [({workingDir := "/w", prompt := "a"} : AgentOptions),
      ({workingDir := "/w", prompt := "b"} : AgentOptions)]
     [.exited 0 "PASS" "", .spawnError "spawn claude ENOENT"]
     [1, 0] (by decide) (by decide) (by decide)⟩

/- ---------------------------------------------------------------------
   OINK phase (src/phases/oink.ts) and the orchestrator's OINK case
   (src/orchestrator.ts, runFromPhase)
   --------------------------------------------------------------------- -/

/-- `PIG_CHECK_TYPES` from src/phases/oink.ts. -/
def PIG_CHECK_TYPES : List String := ["tests", "code-review", "spec-compliance"]

/-- `OinkResult` from src/phases/oink.ts. -/
structure OinkResult where
  success : Bool
  passed : Bool
  feedback : Option String := none
deriving DecidableEq, Repr

/-- One entry of the `verdicts` array built while processing pig
results in `runOinkPhase`. -/
structure PigVerdict where
  pig : String
  passed : Bool
  feedback : String
deriving DecidableEq, Repr

/-- `addReview` from src/state.ts restricted to the persisted document:
appends the review filename to the index and saves.  The raw review
file contents live outside `state.json` and are not part of the
document model. -/
def addReview (now : String) (s : ConsortiumState) (filename : String) : ConsortiumState :=
  saveState now { s with reviews := s.reviews ++ [filename] }

/-- The three verification pig configs built in `runOinkPhase`. -/
def oinkPigs : List AgentConfig :=
  PIG_CHECK_TYPES.mapIdx fun i checkType => createAgentConfig .pig (i + 1) (some checkType)

/-- The `results.forEach` loop of `runOinkPhase`: successful units get
their review recorded and their verdict parsed; failed units are
collected into `failedPigs`. -/
def processPigResults (now : String) :
    ConsortiumState × List String × List PigVerdict →
    List (AgentResult × AgentConfig × String) →
    ConsortiumState × List String × List PigVerdict
  | acc, [] => acc
  | (s, failedPigs, verdicts), (result, pig, checkType) :: rest =>
    if result.success then
      let s' := addReview now s (pig.id ++ "-" ++ checkType ++ ".md")
      let passed := parseVerdict result.output
      processPigResults now
        (s', failedPigs, verdicts ++ [{ pig := pig.id, passed := passed, feedback := result.output }]) rest
    else
      processPigResults now (s, failedPigs ++ [pig.id], verdicts) rest

/-- `runOinkPhase` from src/phases/oink.ts.  `lintResult` is the
outcome of the lint pig run first; `pigResults` are the dispatcher's
results for the three verification pigs, in input order.  Besides the
updated document and the `OinkResult` the model returns the sequence of
`updatePhase` arguments the call issues (its observable phase trace). -/
def runOinkPhase (now : String) (s : ConsortiumState) (lintResult : AgentResult)
    (pigResults : List AgentResult) : ConsortiumState × OinkResult × List Phase :=
  let s1 := updatePhaseRun now s .OINK
  let s2 := if lintResult.success then addReview now s1 "pig-0-lint.md" else s1
  let triples := pigResults.zip (oinkPigs.zip PIG_CHECK_TYPES)
  match processPigResults now (s2, [], []) triples with
  | (s3, failedPigs, verdicts) =>
    if failedPigs.length > 0 then
      (s3, { success := false, passed := false }, [Phase.OINK])
    else if verdicts.all (fun v => v.passed) then
      (updatePhaseRun now s3 .DONE, { success := true, passed := true }, [Phase.OINK, Phase.DONE])
    else
      let failures := verdicts.filter (fun v => !v.passed)
      let feedback := joinWith "\n\n---\n\n"
        (failures.map fun f => "## " ++ f.pig ++ "\n\n" ++ f.feedback)
      (s3, { success := true, passed := false, feedback := some feedback }, [Phase.OINK])

/-- The document state after `runOinkPhase` has recorded the OINK phase
and the reviews of a lint pig plus three successful verification
pigs. -/
def oinkReviewedState (now : String) (s : ConsortiumState) (lintResult : AgentResult) :
    ConsortiumState :=
  let s1 := updatePhaseRun now s .OINK
  let s2 := if lintResult.success then addReview now s1 "pig-0-lint.md" else s1
  addReview now (addReview now (addReview now s2 "pig-1-tests.md") "pig-2-code-review.md")
    "pig-3-spec-compliance.md"

/-- The verdicts array produced when all three verification pigs ran
successfully. -/
def oinkVerdicts (r1 r2 r3 : AgentResult) : List PigVerdict :=
  [{ pig := "pig-1", passed := parseVerdict r1.output, feedback := r1.output },
   { pig := "pig-2", passed := parseVerdict r2.output, feedback := r2.output },
   { pig := "pig-3", passed := parseVerdict r3.output, feedback := r3.output }]

/-- The feedback compilation of `runOinkPhase`: the failing verdicts
only, rendered and joined. -/
def compileOinkFeedback (verdicts : List PigVerdict) : String :=
  joinWith "\n\n---\n\n" ((verdicts.filter (fun v => !v.passed)).map
    (fun f => "## " ++ f.pig ++ "\n\n" ++ f.feedback))

lemma runOinkPhase_three_success (now : String) (s : ConsortiumState)
    (lintResult : AgentResult) (r1 r2 r3 : AgentResult)
    (h1 : r1.success = true) (h2 : r2.success = true) (h3 : r3.success = true) :
    runOinkPhase now s lintResult [r1, r2, r3] =
      if (oinkVerdicts r1 r2 r3).all (fun v => v.passed) then
        (updatePhaseRun now (oinkReviewedState now s lintResult) .DONE,
          { success := true, passed := true }, [Phase.OINK, Phase.DONE])
      else
        (oinkReviewedState now s lintResult,
          { success := true, passed := false,
            feedback := some (compileOinkFeedback (oinkVerdicts r1 r2 r3)) },
          [Phase.OINK]) := by
  simp only [runOinkPhase, oinkPigs, PIG_CHECK_TYPES, List.mapIdx, processPigResults,
    List.zip, List.zipWith, oinkVerdicts, oinkReviewedState, compileOinkFeedback,
    h1, h2, h3, if_pos, createAgentConfig]
  rfl

lemma joinWith_cons_length (sep x : String) (xs : List String) :
    x.length ≤ (joinWith sep (x :: xs)).length := by
  cases xs with
  | nil => simp [joinWith]
  | cons y ys =>
    simp only [joinWith, String.length_append]
    omega

lemma compileOinkFeedback_ne_empty (verdicts : List PigVerdict)
    (h : ∃ v ∈ verdicts, v.passed = false) :
    compileOinkFeedback verdicts ≠ "" := by
  obtain ⟨v, hv, hvp⟩ := h
  have hmem : v ∈ verdicts.filter (fun v => !v.passed) := by
    rw [List.mem_filter]
    exact ⟨hv, by simp [hvp]⟩
  rcases hf : verdicts.filter (fun v => !v.passed) with _ | ⟨f, fs⟩
  · rw [hf] at hmem
    cases hmem
  · have hlen : ("## " ++ f.pig ++ "\n\n" ++ f.feedback).length ≤
        (compileOinkFeedback verdicts).length := by
      rw [compileOinkFeedback, hf, List.map_cons]
      exact joinWith_cons_length _ _ _
    have hpos : 0 < (compileOinkFeedback verdicts).length := by
      have : 0 < ("## " ++ f.pig ++ "\n\n" ++ f.feedback).length := by
        simp only [String.length_append]
        have h3 : ("## " : String).length = 3 := by decide
        omega
      omega
    intro hempty
    rw [hempty] at hpos
    exact absurd hpos (by decide)

/-- C9: when every verification pig executed successfully and at least
one verdict parses as fail, `runOinkPhase` returns `success = true`,
`passed = false`, and a feedback string compiled from exactly the
failing verdicts (the filter keeps only entries whose verdict failed,
so no passing check contributes any content). -/
theorem runOinkPhase_fail_verdict_feedback (now : String) (s : ConsortiumState)
    (lintResult : AgentResult) (r1 r2 r3 : AgentResult)
    (h1 : r1.success = true) (h2 : r2.success = true) (h3 : r3.success = true)
    (hfail : parseVerdict r1.output = false ∨ parseVerdict r2.output = false ∨
      parseVerdict r3.output = false) :
    (runOinkPhase now s lintResult [r1, r2, r3]).2 =
      ({ success := true, passed := false,
         feedback := some (compileOinkFeedback (oinkVerdicts r1 r2 r3)) },
       [Phase.OINK]) := by
  rw [runOinkPhase_three_success now s lintResult r1 r2 r3 h1 h2 h3]
  have hall : (oinkVerdicts r1 r2 r3).all (fun v => v.passed) = false := by
    simp only [oinkVerdicts, List.all_cons, List.all_nil]
    rcases hfail with h | h | h <;> simp [h]
  rw [if_neg (by simp [hall])]

/-- Witness for C9: verdicts [fail, pass, pass] yield `passed = false`
with feedback containing only the failing check's content. -/
theorem runOinkPhase_fail_verdict_feedback_witness :
    ((AgentResult.mk true "VERDICT: FAIL\nTests are broken" none).success = true ∧
      parseVerdict (AgentResult.mk true "VERDICT: FAIL\nTests are broken" none).output = false) ∧
    (runOinkPhase "t1"
        (initializeState "t0" "rc-1" "/w" "Add feature" none)
        (AgentResult.mk true "VERDICT: PASS" none)
        [AgentResult.mk true "VERDICT: FAIL\nTests are broken" none,
         AgentResult.mk true "VERDICT: PASS\nLooks good" none,
         AgentResult.mk true "VERDICT: PASS\nSpec ok" none]).2 =
      ({ success := true, passed := false,
         feedback := some (compileOinkFeedback (oinkVerdicts
           (AgentResult.mk true "VERDICT: FAIL\nTests are broken" none)
           (AgentResult.mk true "VERDICT: PASS\nLooks good" none)
           (AgentResult.mk true "VERDICT: PASS\nSpec ok" none))) },
       [Phase.OINK]) :=
  ⟨⟨rfl, by decide⟩,
   runOinkPhase_fail_verdict_feedback "t1"
     (initializeState "t0" "rc-1" "/w" "Add feature" none)
     (AgentResult.mk true "VERDICT: PASS" none)
     (AgentResult.mk true "VERDICT: FAIL\nTests are broken" none)
     (AgentResult.mk true "VERDICT: PASS\nLooks good" none)
     (AgentResult.mk true "VERDICT: PASS\nSpec ok" none)
     rfl rfl rfl (Or.inl (by decide))⟩

/-- Outcome of the `case 'OINK'` arm of `runFromPhase`
(src/orchestrator.ts): the persisted document, the result returned by
`runOinkPhase`, the sequence of `updatePhase` arguments recorded during
the arm (including those of `runOinkPhase` itself), and whether control
recursed into `runFromPhase(workingDir, 'BUILD')`. -/
structure OinkCaseOutcome where
  st : ConsortiumState
  oinkResult : OinkResult
  phaseTrace : List Phase
  resumedBuild : Bool
deriving DecidableEq, Repr

/-- The `case 'OINK'` arm of `runFromPhase` (src/orchestrator.ts).  On
a phase-level failure it returns; on a failing verdict it asks the user
(`retryAnswer`) and either records phase BUILD and recurses into the
BUILD phase or pauses; on a passing verdict it records phase DONE and
falls through to the final summary (`'OINK'` is the last entry of the
orchestrator's phase list). -/
def runFromPhaseOinkCase (now : String) (s : ConsortiumState) (lintResult : AgentResult)
    (pigResults : List AgentResult) (retryAnswer : Bool) : OinkCaseOutcome :=
  match runOinkPhase now s lintResult pigResults with
  | (s1, result, trace) =>
    if !result.success then
      { st := s1, oinkResult := result, phaseTrace := trace, resumedBuild := false }
    else if !result.passed then
      if retryAnswer then
        { st := updatePhaseRun now s1 .BUILD, oinkResult := result
          phaseTrace := trace ++ [Phase.BUILD], resumedBuild := true }
      else
        { st := s1, oinkResult := result, phaseTrace := trace, resumedBuild := false }
    else
      { st := updatePhaseRun now s1 .DONE, oinkResult := result
        phaseTrace := trace ++ [Phase.DONE], resumedBuild := false }

/-- C1 (amended): when every verification pig runs successfully and
every verdict parses as pass, the phase recorded after OINK is DONE,
not PR: `runOinkPhase` itself records DONE, the orchestrator's OINK arm
records DONE again, the run's final persisted phase is DONE, and PR is
never recorded. -/
theorem oink_all_pass_records_DONE (now : String) (s : ConsortiumState)
    (lintResult : AgentResult) (r1 r2 r3 : AgentResult) (retryAnswer : Bool)
    (h1 : r1.success = true) (h2 : r2.success = true) (h3 : r3.success = true)
    (hp1 : parseVerdict r1.output = true) (hp2 : parseVerdict r2.output = true)
    (hp3 : parseVerdict r3.output = true) :
    (runFromPhaseOinkCase now s lintResult [r1, r2, r3] retryAnswer).phaseTrace =
        [Phase.OINK, Phase.DONE, Phase.DONE] ∧
      (runFromPhaseOinkCase now s lintResult [r1, r2, r3] retryAnswer).st.phase = Phase.DONE ∧
      Phase.PR ∉ (runFromPhaseOinkCase now s lintResult [r1, r2, r3] retryAnswer).phaseTrace := by
  have hall : (oinkVerdicts r1 r2 r3).all (fun v => v.passed) = true := by
    simp [oinkVerdicts, hp1, hp2, hp3]
  have hrun := runOinkPhase_three_success now s lintResult r1 r2 r3 h1 h2 h3
  rw [if_pos hall] at hrun
  refine ⟨?_, ?_, ?_⟩ <;>
    simp [runFromPhaseOinkCase, hrun, updatePhaseRun, saveState]

/-- Witness for C1's amended theorem: a concrete all-pass OINK records
[OINK, DONE, DONE]. -/
theorem oink_all_pass_records_DONE_witness :
    ((AgentResult.mk true "VERDICT: PASS\nTests green" none).success = true ∧
      parseVerdict (AgentResult.mk true "VERDICT: PASS\nTests green" none).output = true) ∧
    ((runFromPhaseOinkCase "t1" (initializeState "t0" "rc-1" "/w" "Add feature" none)
        (AgentResult.mk true "VERDICT: PASS" none)
        [AgentResult.mk true "VERDICT: PASS\nTests green" none,
         AgentResult.mk true "VERDICT: PASS\nCode fine" none,
         AgentResult.mk true "VERDICT: PASS\nSpec ok" none] true).phaseTrace =
        [Phase.OINK, Phase.DONE, Phase.DONE] ∧
      (runFromPhaseOinkCase "t1" (initializeState "t0" "rc-1" "/w" "Add feature" none)
        (AgentResult.mk true "VERDICT: PASS" none)
        [AgentResult.mk true "VERDICT: PASS\nTests green" none,
         AgentResult.mk true "VERDICT: PASS\nCode fine" none,
         AgentResult.mk true "VERDICT: PASS\nSpec ok" none] true).st.phase = Phase.DONE ∧
      Phase.PR ∉ (runFromPhaseOinkCase "t1" (initializeState "t0" "rc-1" "/w" "Add feature" none)
        (AgentResult.mk true "VERDICT: PASS" none)
        [AgentResult.mk true "VERDICT: PASS\nTests green" none,
         AgentResult.mk true "VERDICT: PASS\nCode fine" none,
         AgentResult.mk true "VERDICT: PASS\nSpec ok" none] true).phaseTrace) :=
  ⟨⟨rfl, by decide⟩,
   oink_all_pass_records_DONE "t1" (initializeState "t0" "rc-1" "/w" "Add feature" none)
     (AgentResult.mk true "VERDICT: PASS" none)
     (AgentResult.mk true "VERDICT: PASS\nTests green" none)
     (AgentResult.mk true "VERDICT: PASS\nCode fine" none)
     (AgentResult.mk true "VERDICT: PASS\nSpec ok" none) true
     rfl rfl rfl (by decide) (by decide) (by decide)⟩

/-- Counterexample to C1 as stated: in a concrete run where every
verification unit succeeds and every verdict parses as pass, the phase
recorded after OINK is DONE and PR is never entered — the phase trace
of the OINK arm is [OINK, DONE, DONE], so the next phase entered after
OINK is not PR. -/
theorem oink_all_pass_enters_DONE_not_PR_counterexample :
    (runFromPhaseOinkCase "t1" (initializeState "t0" "rc-2" "/w" "Fix bug" none)
        (AgentResult.mk true "VERDICT: PASS" none)
        [AgentResult.mk true "VERDICT: PASS\nall tests pass" none,
         AgentResult.mk true "VERDICT: PASS\nreview clean" none,
         AgentResult.mk true "VERDICT: PASS\nspec met" none] true).phaseTrace =
      [Phase.OINK, Phase.DONE, Phase.DONE] ∧
    (runFromPhaseOinkCase "t1" (initializeState "t0" "rc-2" "/w" "Fix bug" none)
        (AgentResult.mk true "VERDICT: PASS" none)
        [AgentResult.mk true "VERDICT: PASS\nall tests pass" none,
         AgentResult.mk true "VERDICT: PASS\nreview clean" none,
         AgentResult.mk true "VERDICT: PASS\nspec met" none] true).st.phase ≠ Phase.PR ∧
    Phase.PR ∉ (runFromPhaseOinkCase "t1" (initializeState "t0" "rc-2" "/w" "Fix bug" none)
        (AgentResult.mk true "VERDICT: PASS" none)
        [AgentResult.mk true "VERDICT: PASS\nall tests pass" none,
         AgentResult.mk true "VERDICT: PASS\nreview clean" none,
         AgentResult.mk true "VERDICT: PASS\nspec met" none] true).phaseTrace := by
  refine ⟨by decide, by decide, by decide⟩

/- ---------------------------------------------------------------------
   BUILD phase (src/phases/build.ts)
   --------------------------------------------------------------------- -/

/-- `BuildTask` from src/phases/build.ts: one entry of the JSON array
the task-extraction agent returns. -/
structure BuildTask where
  id : String
  description : String
  dependencies : List String
deriving DecidableEq, Repr

/-- The fallback in `runBuildPhase`: when no implementation tasks were
extracted, treat the whole plan as a single independent task. -/
def effectiveTasks (extracted : List BuildTask) : List BuildTask :=
  if extracted.isEmpty then
    [{ id := "task-1", description := "Implement the full plan", dependencies := [] }]
  else extracted

/-- The `for (const task of tasks) addTask(...)` loop of
`runBuildPhase`: creates one pending task record per build task (ids
are generated by `addTask` from the running count). -/
def createTaskRecords (now : String) (s : ConsortiumState) (ts : List BuildTask) :
    ConsortiumState :=
  ts.foldl (fun s t => addTask now s t.description t.dependencies) s

/-- The document state after `runBuildPhase` has recorded the BUILD
phase and created the task records. -/
def buildInitialState (now : String) (s : ConsortiumState) (extracted : List BuildTask) :
    ConsortiumState :=
  createTaskRecords now (updatePhaseRun now s .BUILD) (effectiveTasks extracted)

/-- The `{ status: 'completed', output: result.output }` update. -/
def completeTask (output : String) (t : Task) : Task :=
  { t with status := .completed, output := some output }

/-- The `{ status: 'failed', error: result.error }` update. -/
def failTask (error : Option String) (t : Task) : Task :=
  { t with status := .failed, error := error }

/-- The `{ status: 'blocked' }` update. -/
def blockTask (t : Task) : Task :=
  { t with status := .blocked }

/-- The `results.forEach` loop over the independent tasks dispatched in
parallel: results arrive in input order (see `runAgentsInParallel`), so
the loop is modelled by processing the tasks in order, each with its
unit's result from the environment `env`. -/
def runIndependentLoop (now : String) (env : BuildTask → AgentResult) :
    ConsortiumState × List String → List BuildTask →
    Except String (ConsortiumState × List String)
  | acc, [] => .ok acc
  | acc, bt :: rest =>
    if (env bt).success then
      match updateTask now acc.1 bt.id (completeTask (env bt).output) with
      | .error e => .error e
      | .ok s' => runIndependentLoop now env (s', acc.2) rest
    else
      match updateTask now acc.1 bt.id (failTask (env bt).error) with
      | .error e => .error e
      | .ok s' => runIndependentLoop now env (s', acc.2 ++ [bt.id]) rest

/-- One iteration of the dependent-task loop of `runBuildPhase`:
re-read the persisted task statuses, block the task if any blocker is
not completed, otherwise dispatch it and record the result. -/
def dependentStep (now : String) (env : BuildTask → AgentResult)
    (acc : ConsortiumState × List String) (bt : BuildTask) :
    Except String (ConsortiumState × List String) :=
  if !((acc.1.tasks.filter (fun t => bt.dependencies.contains t.id)).all
      (fun d => d.status == TaskStatus.completed)) then
    match updateTask now acc.1 bt.id blockTask with
    | .error e => .error e
    | .ok s' => .ok (s', acc.2)
  else if (env bt).success then
    match updateTask now acc.1 bt.id (completeTask (env bt).output) with
    | .error e => .error e
    | .ok s' => .ok (s', acc.2)
  else
    match updateTask now acc.1 bt.id (failTask (env bt).error) with
    | .error e => .error e
    | .ok s' => .ok (s', acc.2 ++ [bt.id])

/-- The `for (const task of dependentTasks)` loop: one task at a time,
in declaration order, re-reading statuses before each (the threaded
state is the re-read `loadState` value). -/
def runDependentLoop (now : String) (env : BuildTask → AgentResult) :
    ConsortiumState × List String → List BuildTask →
    Except String (ConsortiumState × List String)
  | acc, [] => .ok acc
  | acc, bt :: rest =>
    match dependentStep now env acc bt with
    | .error e => .error e
    | .ok acc' => runDependentLoop now env acc' rest

/-- `runBuildPhase` from src/phases/build.ts.  `extracted` is the task
list parsed from the extraction agent's output (already `[]` on agent
failure or unparseable JSON); `env` gives each dispatched dawg unit's
result.  Returns the final document and the phase success flag
(`failedTasks.length > 0` fails the phase; the returned `questions`
list, which no claim touches, is omitted). -/
def runBuildPhase (now : String) (s : ConsortiumState) (extracted : List BuildTask)
    (env : BuildTask → AgentResult) : Except String (ConsortiumState × Bool) :=
  let tasks := effectiveTasks extracted
  let s1 := buildInitialState now s extracted
  let independentTasks := tasks.filter (fun t => t.dependencies.length == 0)
  let dependentTasks := tasks.filter (fun t => decide (t.dependencies.length > 0))
  match runIndependentLoop now env (s1, []) independentTasks with
  | .error e => .error e
  | .ok acc1 =>
    match runDependentLoop now env acc1 dependentTasks with
    | .error e => .error e
    | .ok (s2, failedTasks) => .ok (s2, failedTasks.length == 0)

/-- `buildDawgPrompt` from src/agents.ts: the full prompt text handed
to each implementer unit during BUILD. -/
def buildDawgPrompt (description plan taskDescription : String) : String :=
  "You are a Dawg agent in the robot-consortium system. Your job is to implement code changes.\n\nOVERALL TASK:\n"
    ++ description
    ++ "\n\nAPPROVED PLAN:\n"
    ++ plan
    ++ "\n\nYOUR SPECIFIC TASK:\n"
    ++ taskDescription
    ++ "\n\nINSTRUCTIONS:\n1. Implement the changes described in your task\n2. Follow existing code patterns in the codebase\n3. Write clean, maintainable code\n4. Add appropriate tests if specified in the plan\n\nDo the implementation now. Write the code."

/-- The inline task-extraction prompt of `extractTasksFromPlan`
(src/phases/build.ts). -/
def extractTasksPrompt (description plan : String) : String :=
  "Extract implementation tasks from this plan.\n\nTASK: "
    ++ description
    ++ "\n\nPLAN:\n"
    ++ plan
    ++ "\n\nReturn a JSON array of tasks. Each task should have:\n- id: string (e.g., \"task-1\")\n- description: string (what to implement)\n- dependencies: string[] (IDs of tasks that must complete first)\n\nTasks that can run in parallel should have empty dependencies.\nTasks that depend on others should list those task IDs.\n\nRESPOND WITH ONLY THE JSON ARRAY, NO OTHER TEXT.\n\nExample:\n[\n  \x7b\"id\": \"task-1\", \"description\": \"Create the new component file\", \"dependencies\": []\x7d,\n  \x7b\"id\": \"task-2\", \"description\": \"Add the API endpoint\", \"dependencies\": []\x7d,\n  \x7b\"id\": \"task-3\", \"description\": \"Wire up the component to the API\", \"dependencies\": [\"task-1\", \"task-2\"]\x7d\n]"

/-- The complete set of prompt texts a BUILD invocation hands to its
agent units: the task-extraction prompt followed by one dawg prompt per
effective task.  These are the only free-text inputs the BUILD phase
passes to agents; they are built from the persisted task description,
the final plan file, and the extracted task descriptions. -/
def buildPrompts (description finalPlanContent : String) (extracted : List BuildTask) :
    List String :=
  extractTasksPrompt description finalPlanContent ::
    (effectiveTasks extracted).map
      (fun t => buildDawgPrompt description finalPlanContent t.description)

/-- C2 (amended): from OINK where every verification unit ran but at
least one verdict is fail, with the user approving retry, the next
recorded phase is BUILD (the arm records phase BUILD and recurses into
the BUILD phase) and the feedback text compiled from the failing
verifiers is non-empty — but it is only returned to the orchestrator
and persisted under reviews/; it is not passed into the next BUILD
invocation's inputs (see the counterexample theorem for the claim as
stated). -/
theorem oink_fail_retry_records_BUILD (now : String) (s : ConsortiumState)
    (lintResult : AgentResult) (r1 r2 r3 : AgentResult)
    (h1 : r1.success = true) (h2 : r2.success = true) (h3 : r3.success = true)
    (hfail : parseVerdict r1.output = false ∨ parseVerdict r2.output = false ∨
      parseVerdict r3.output = false) :
    (runFromPhaseOinkCase now s lintResult [r1, r2, r3] true).phaseTrace =
        [Phase.OINK, Phase.BUILD] ∧
      (runFromPhaseOinkCase now s lintResult [r1, r2, r3] true).st.phase = Phase.BUILD ∧
      (runFromPhaseOinkCase now s lintResult [r1, r2, r3] true).resumedBuild = true ∧
      (runFromPhaseOinkCase now s lintResult [r1, r2, r3] true).oinkResult.feedback =
        some (compileOinkFeedback (oinkVerdicts r1 r2 r3)) ∧
      compileOinkFeedback (oinkVerdicts r1 r2 r3) ≠ "" := by
  have hall : (oinkVerdicts r1 r2 r3).all (fun v => v.passed) = false := by
    simp only [oinkVerdicts, List.all_cons, List.all_nil]
    rcases hfail with h | h | h <;> simp [h]
  have hrun := runOinkPhase_three_success now s lintResult r1 r2 r3 h1 h2 h3
  rw [if_neg (by simp [hall])] at hrun
  have hne : compileOinkFeedback (oinkVerdicts r1 r2 r3) ≠ "" := by
    apply compileOinkFeedback_ne_empty
    rcases hfail with h | h | h
    · refine ⟨{ pig := "pig-1", passed := parseVerdict r1.output, feedback := r1.output }, ?_, by simpa using h⟩
      simp [oinkVerdicts]
    · refine ⟨{ pig := "pig-2", passed := parseVerdict r2.output, feedback := r2.output }, ?_, by simpa using h⟩
      simp [oinkVerdicts]
    · refine ⟨{ pig := "pig-3", passed := parseVerdict r3.output, feedback := r3.output }, ?_, by simpa using h⟩
      simp [oinkVerdicts]
  refine ⟨?_, ?_, ?_, ?_, hne⟩ <;>
    simp [runFromPhaseOinkCase, hrun, updatePhaseRun, saveState]

/-- Witness for C2's amended theorem. -/
theorem oink_fail_retry_records_BUILD_witness :
    ((AgentResult.mk true "VERDICT: FAIL\nmissing tests" none).success = true ∧
      parseVerdict (AgentResult.mk true "VERDICT: FAIL\nmissing tests" none).output = false) ∧
    ((runFromPhaseOinkCase "t1" (initializeState "t0" "rc-3" "/w" "Add endpoint" none)
        (AgentResult.mk true "VERDICT: PASS" none)
        [AgentResult.mk true "VERDICT: FAIL\nmissing tests" none,
         AgentResult.mk true "VERDICT: PASS" none,
         AgentResult.mk true "VERDICT: PASS" none] true).phaseTrace =
        [Phase.OINK, Phase.BUILD] ∧
      (runFromPhaseOinkCase "t1" (initializeState "t0" "rc-3" "/w" "Add endpoint" none)
        (AgentResult.mk true "VERDICT: PASS" none)
        [AgentResult.mk true "VERDICT: FAIL\nmissing tests" none,
         AgentResult.mk true "VERDICT: PASS" none,
         AgentResult.mk true "VERDICT: PASS" none] true).st.phase = Phase.BUILD ∧
      (runFromPhaseOinkCase "t1" (initializeState "t0" "rc-3" "/w" "Add endpoint" none)
        (AgentResult.mk true "VERDICT: PASS" none)
        [AgentResult.mk true "VERDICT: FAIL\nmissing tests" none,
         AgentResult.mk true "VERDICT: PASS" none,
         AgentResult.mk true "VERDICT: PASS" none] true).resumedBuild = true ∧
      (runFromPhaseOinkCase "t1" (initializeState "t0" "rc-3" "/w" "Add endpoint" none)
        (AgentResult.mk true "VERDICT: PASS" none)
        [AgentResult.mk true "VERDICT: FAIL\nmissing tests" none,
         AgentResult.mk true "VERDICT: PASS" none,
         AgentResult.mk true "VERDICT: PASS" none] true).oinkResult.feedback =
        some (compileOinkFeedback (oinkVerdicts
          (AgentResult.mk true "VERDICT: FAIL\nmissing tests" none)
          (AgentResult.mk true "VERDICT: PASS" none)
          (AgentResult.mk true "VERDICT: PASS" none))) ∧
      compileOinkFeedback (oinkVerdicts
          (AgentResult.mk true "VERDICT: FAIL\nmissing tests" none)
          (AgentResult.mk true "VERDICT: PASS" none)
          (AgentResult.mk true "VERDICT: PASS" none)) ≠ "") :=
  ⟨⟨rfl, by decide⟩,
   oink_fail_retry_records_BUILD "t1" (initializeState "t0" "rc-3" "/w" "Add endpoint" none)
     (AgentResult.mk true "VERDICT: PASS" none)
     (AgentResult.mk true "VERDICT: FAIL\nmissing tests" none)
     (AgentResult.mk true "VERDICT: PASS" none)
     (AgentResult.mk true "VERDICT: PASS" none)
     rfl rfl rfl (Or.inl (by decide))⟩

/-- Counterexample to C2 as stated: a concrete OINK run with verdicts
[fail, pass, pass] and retry approved does record BUILD next and does
compile a non-empty feedback string, but that feedback is not passed
into the next BUILD invocation's inputs: every prompt the subsequent
BUILD phase hands to its agents (the task-extraction prompt and the
dawg prompts, built only from the persisted description, the final plan
and the task descriptions) fails to contain the feedback text. -/
theorem oink_feedback_not_passed_to_build_counterexample :
    (runFromPhaseOinkCase "t1" (initializeState "t0" "rc-4" "/w" "Fix bug" none)
        (AgentResult.mk true "VERDICT: PASS" none)
        [AgentResult.mk true "VERDICT: FAIL ZXQJW tests broken" none,
         AgentResult.mk true "VERDICT: PASS" none,
         AgentResult.mk true "VERDICT: PASS" none] true).phaseTrace =
      [Phase.OINK, Phase.BUILD] ∧
    (runFromPhaseOinkCase "t1" (initializeState "t0" "rc-4" "/w" "Fix bug" none)
        (AgentResult.mk true "VERDICT: PASS" none)
        [AgentResult.mk true "VERDICT: FAIL ZXQJW tests broken" none,
         AgentResult.mk true "VERDICT: PASS" none,
         AgentResult.mk true "VERDICT: PASS" none] true).oinkResult.feedback =
      some "## pig-1\n\nVERDICT: FAIL ZXQJW tests broken" ∧
    ("## pig-1\n\nVERDICT: FAIL ZXQJW tests broken" : String) ≠ "" ∧
    (buildPrompts "Fix bug" "Final plan: touch the handler." []).all
      (fun p => !containsSubstr p "## pig-1\n\nVERDICT: FAIL ZXQJW tests broken") = true ∧
    (buildPrompts "Fix bug" "Final plan: touch the handler." []).all
      (fun p => !containsSubstr p "ZXQJW") = true := by
  refine ⟨by decide, by decide, by decide, by decide, by decide⟩

lemma setTaskStatus_some_of_mem (tasks : List Task) (taskId : String) (f : Task → Task)
    (h : taskId ∈ tasks.map Task.id) :
    ∃ ts', setTaskStatus tasks taskId f = some ts' := by
  induction tasks with
  | nil => simp at h
  | cons t ts ih =>
    rw [List.map_cons, List.mem_cons] at h
    by_cases hc : t.id = taskId
    · exact ⟨f t :: ts, by simp [setTaskStatus, hc]⟩
    · have hmem : taskId ∈ ts.map Task.id := by
        rcases h with h | h
        · exact absurd h.symm hc
        · exact h
      obtain ⟨ts', hts'⟩ := ih hmem
      exact ⟨t :: ts', by simp [setTaskStatus, hc, hts']⟩

lemma statusOf_cons_of_pos (t : Task) (ts : List Task) (taskId : String)
    (h : t.id = taskId) : statusOf (t :: ts) taskId = some t.status := by
  rw [statusOf, List.find?_cons_of_pos _ (by simp [h])]
  rfl

lemma statusOf_cons_of_neg (t : Task) (ts : List Task) (taskId : String)
    (h : t.id ≠ taskId) : statusOf (t :: ts) taskId = statusOf ts taskId := by
  rw [statusOf, List.find?_cons_of_neg _ (by simp [h])]
  rfl

lemma statusOf_setTaskStatus_self (tasks : List Task) (ts' : List Task) (taskId : String)
    (f : Task → Task) (hid : ∀ t, (f t).id = t.id) (c : TaskStatus)
    (hst : ∀ t, (f t).status = c)
    (h : setTaskStatus tasks taskId f = some ts') :
    statusOf ts' taskId = some c := by
  induction tasks generalizing ts' with
  | nil => simp [setTaskStatus] at h
  | cons t ts ih =>
    by_cases hc : t.id = taskId
    · rw [setTaskStatus, if_pos (by simp [hc])] at h
      cases h
      rw [statusOf_cons_of_pos (f t) ts taskId (by rw [hid, hc]), hst]
    · rw [setTaskStatus, if_neg (by simp [hc])] at h
      rcases hrec : setTaskStatus ts taskId f with _ | ts''
      · rw [hrec] at h
        cases h
      · rw [hrec] at h
        cases h
        rw [statusOf_cons_of_neg t ts'' taskId hc]
        exact ih ts'' hrec

lemma statusOf_setTaskStatus_ne (tasks : List Task) (ts' : List Task) (taskId j : String)
    (f : Task → Task) (hid : ∀ t, (f t).id = t.id) (hj : j ≠ taskId)
    (h : setTaskStatus tasks taskId f = some ts') :
    statusOf ts' j = statusOf tasks j := by
  induction tasks generalizing ts' with
  | nil => simp [setTaskStatus] at h
  | cons t ts ih =>
    by_cases hc : t.id = taskId
    · rw [setTaskStatus, if_pos (by simp [hc])] at h
      cases h
      rw [statusOf_cons_of_neg (f t) ts j (by rw [hid, hc]; exact Ne.symm hj),
        statusOf_cons_of_neg t ts j (by rw [hc]; exact Ne.symm hj)]
    · rw [setTaskStatus, if_neg (by simp [hc])] at h
      rcases hrec : setTaskStatus ts taskId f with _ | ts''
      · rw [hrec] at h
        cases h
      · rw [hrec] at h
        cases h
        by_cases hcj : t.id = j
        · rw [statusOf_cons_of_pos t ts'' j hcj, statusOf_cons_of_pos t ts j hcj]
        · rw [statusOf_cons_of_neg t ts'' j hcj, statusOf_cons_of_neg t ts j hcj]
          exact ih ts'' hrec

lemma updateTask_preserves_statusOf (now : String) (s s' : ConsortiumState)
    (taskId j : String) (f : Task → Task) (hid : ∀ t, (f t).id = t.id) (hj : j ≠ taskId)
    (h : updateTask now s taskId f = .ok s') :
    statusOf s'.tasks j = statusOf s.tasks j := by
  unfold updateTask at h
  rcases hset : setTaskStatus s.tasks taskId f with _ | ts
  · rw [hset] at h
    cases h
  · rw [hset] at h
    cases h
    simpa [saveState] using statusOf_setTaskStatus_ne s.tasks ts taskId j f hid hj hset

lemma dependentStep_preserves_statusOf (now : String) (env : BuildTask → AgentResult)
    (acc acc' : ConsortiumState × List String) (bt : BuildTask) (j : String)
    (hj : j ≠ bt.id) (h : dependentStep now env acc bt = .ok acc') :
    statusOf acc'.1.tasks j = statusOf acc.1.tasks j := by
  unfold dependentStep at h
  split at h
  · rcases hupd : updateTask now acc.1 bt.id blockTask with e | s'
    · rw [hupd] at h
      cases h
    · rw [hupd] at h
      cases h
      exact updateTask_preserves_statusOf now acc.1 s' bt.id j blockTask (fun t => rfl) hj hupd
  · split at h
    · rcases hupd : updateTask now acc.1 bt.id (completeTask (env bt).output) with e | s'
      · rw [hupd] at h
        cases h
      · rw [hupd] at h
        cases h
        exact updateTask_preserves_statusOf now acc.1 s' bt.id j
          (completeTask (env bt).output) (fun t => rfl) hj hupd
    · rcases hupd : updateTask now acc.1 bt.id (failTask (env bt).error) with e | s'
      · rw [hupd] at h
        cases h
      · rw [hupd] at h
        cases h
        exact updateTask_preserves_statusOf now acc.1 s' bt.id j
          (failTask (env bt).error) (fun t => rfl) hj hupd

lemma runDependentLoop_preserves_statusOf (now : String) (env : BuildTask → AgentResult)
    (bts : List BuildTask) :
    ∀ (acc acc' : ConsortiumState × List String) (j : String),
      runDependentLoop now env acc bts = .ok acc' →
      (∀ bt ∈ bts, bt.id ≠ j) →
      statusOf acc'.1.tasks j = statusOf acc.1.tasks j := by
  induction bts with
  | nil =>
    intro acc acc' j h _
    cases h
    rfl
  | cons bt rest ih =>
    intro acc acc' j h hne
    unfold runDependentLoop at h
    rcases hstep : dependentStep now env acc bt with e | acc1
    · rw [hstep] at h
      cases h
    · rw [hstep] at h
      have h1 := dependentStep_preserves_statusOf now env acc acc1 bt j
        (fun hc => (hne bt (List.mem_cons_self bt rest)) hc.symm) hstep
      rw [ih acc1 acc' j h (fun b hb => hne b (List.mem_cons_of_mem _ hb)), h1]

lemma runDependentLoop_append (now : String) (env : BuildTask → AgentResult)
    (l1 l2 : List BuildTask) (acc : ConsortiumState × List String) :
    runDependentLoop now env acc (l1 ++ l2) =
      match runDependentLoop now env acc l1 with
      | .error e => .error e
      | .ok acc' => runDependentLoop now env acc' l2 := by
  induction l1 generalizing acc with
  | nil => simp [runDependentLoop]
  | cons bt rest ih =>
    rcases hstep : dependentStep now env acc bt with e | acc1
    · simp only [List.cons_append, runDependentLoop, hstep]
    · simp only [List.cons_append, runDependentLoop, hstep]
      exact ih acc1

/-- C5: within one BUILD scheduling pass, a dependent task that — at
the moment the sequential loop reaches it (i.e. in the re-read state
`s1` left by the prior iterations) — has a blocker whose persisted
status is not `completed`, ends the pass with status `blocked`, never
`completed`: the loop marks it blocked, skips dispatching it, and no
later iteration of the same pass (which processes the remaining
dependent tasks one at a time, in declaration order, under distinct
ids) touches it again. -/
theorem dependent_task_with_unmet_blocker_ends_blocked
    (now : String) (env : BuildTask → AgentResult) (s0 : ConsortiumState)
    (failed0 : List String) (ds1 : List BuildTask) (d : BuildTask) (ds2 : List BuildTask)
    (s1 : ConsortiumState) (f1 : List String) (sF : ConsortiumState) (fF : List String)
    (hrun1 : runDependentLoop now env (s0, failed0) ds1 = .ok (s1, f1))
    (hblock : ∃ t ∈ s1.tasks, t.id ∈ d.dependencies ∧ t.status ≠ TaskStatus.completed)
    (hfound : d.id ∈ s1.tasks.map Task.id)
    (hlater : ∀ bt ∈ ds2, bt.id ≠ d.id)
    (hrunAll : runDependentLoop now env (s0, failed0) (ds1 ++ d :: ds2) = .ok (sF, fF)) :
    statusOf sF.tasks d.id = some TaskStatus.blocked := by
  rw [runDependentLoop_append, hrun1] at hrunAll
  obtain ⟨t, htmem, htdep, htstat⟩ := hblock
  have hdeps : ((s1.tasks.filter (fun t => d.dependencies.contains t.id)).all
      (fun d => d.status == TaskStatus.completed)) = false := by
    rw [List.all_eq_false]
    refine ⟨t, ?_, by simpa using htstat⟩
    rw [List.mem_filter]
    exact ⟨htmem, by simpa using htdep⟩
  obtain ⟨ts', hset⟩ := setTaskStatus_some_of_mem s1.tasks d.id blockTask hfound
  have hstep : dependentStep now env (s1, f1) d =
      .ok (saveState now { s1 with tasks := ts' }, f1) := by
    unfold dependentStep
    rw [hdeps]
    simp [updateTask, hset]
  unfold runDependentLoop at hrunAll
  rw [hstep] at hrunAll
  have hpres := runDependentLoop_preserves_statusOf now env ds2 _ (sF, fF) d.id hrunAll hlater
  rw [hpres]
  simpa [saveState] using
    statusOf_setTaskStatus_self s1.tasks ts' d.id blockTask (fun t => rfl)
      TaskStatus.blocked (fun t => rfl) hset

/-- A concrete two-task document used to exercise the dependent-task
scheduler: task-1 still pending, task-2 declared blocked on it. -/
def demoState : ConsortiumState :=
  { initializeState "t0" "rc-5" "/w" "demo" none with
    tasks := [{ id := "task-1", description := "independent work", status := .pending },
              { id := "task-2", description := "dependent work", status := .pending }] }

/-- The dependent build task of the demo scenario. -/
def demoDependent : BuildTask :=
  { id := "task-2", description := "dependent work", dependencies := ["task-1"] }

/-- Executor environment for the demo scenario: every unit would
succeed if dispatched. -/
def demoEnv : BuildTask → AgentResult := fun _ => { success := true, output := "done" }

/-- The demo document after the dependent pass: task-2 marked blocked. -/
def demoFinal : ConsortiumState :=
  saveState "t1" { demoState with
    tasks := [{ id := "task-1", description := "independent work", status := .pending },
              { id := "task-2", description := "dependent work", status := .blocked }] }

/-- Witness for C5: with task-2 blocked on a still-pending task-1, one
dependent pass marks task-2 blocked. -/
theorem dependent_task_with_unmet_blocker_ends_blocked_witness :
    ((∃ t ∈ demoState.tasks, t.id ∈ demoDependent.dependencies ∧
        t.status ≠ TaskStatus.completed) ∧
      demoDependent.id ∈ demoState.tasks.map Task.id) ∧
    runDependentLoop "t1" demoEnv (demoState, []) [demoDependent] = .ok (demoFinal, []) ∧
    statusOf demoFinal.tasks demoDependent.id = some TaskStatus.blocked :=
  ⟨⟨by decide, by decide⟩, rfl,
   dependent_task_with_unmet_blocker_ends_blocked "t1" demoEnv demoState [] []
     demoDependent [] demoState [] demoFinal [] rfl (by decide) (by decide)
     (by decide) rfl⟩

/- Invariant machinery for the phase-success claim about
`runBuildPhase`. -/

/-- Invariant carried through the BUILD loops: the collected failed-ids
list is nonempty exactly when some persisted task has status `failed`,
and the task record of every build task still to be processed is
pending. -/
def TasksInv (s : ConsortiumState) (failed : List String) (rem : List BuildTask) : Prop :=
  (failed ≠ [] → ∃ t ∈ s.tasks, t.status = TaskStatus.failed) ∧
  (∀ t ∈ s.tasks, t.status = TaskStatus.failed → failed ≠ []) ∧
  (∀ bt ∈ rem, statusOf s.tasks bt.id = some TaskStatus.pending)

lemma setTaskStatus_decomp (tasks : List Task) (taskId : String) (f : Task → Task)
    (ts' : List Task) (h : setTaskStatus tasks taskId f = some ts') :
    ∃ l1 t l2, tasks = l1 ++ t :: l2 ∧ ts' = l1 ++ f t :: l2 ∧ t.id = taskId ∧
      ∀ u ∈ l1, u.id ≠ taskId := by
  induction tasks generalizing ts' with
  | nil => simp [setTaskStatus] at h
  | cons t ts ih =>
    by_cases hc : t.id = taskId
    · rw [setTaskStatus, if_pos (by simp [hc])] at h
      cases h
      exact ⟨[], t, ts, rfl, rfl, hc, by simp⟩
    · rw [setTaskStatus, if_neg (by simp [hc])] at h
      rcases hrec : setTaskStatus ts taskId f with _ | ts''
      · rw [hrec] at h
        cases h
      · rw [hrec] at h
        cases h
        obtain ⟨l1, u, l2, h1, h2, h3, h4⟩ := ih ts'' hrec
        refine ⟨t :: l1, u, l2, by rw [List.cons_append, h1], by rw [List.cons_append, h2], h3, ?_⟩
        intro v hv
        rcases List.mem_cons.mp hv with hv | hv
        · subst hv
          exact hc
        · exact h4 v hv

lemma statusOf_append_first (l1 : List Task) (t : Task) (l2 : List Task) (taskId : String)
    (ht : t.id = taskId) (hl1 : ∀ u ∈ l1, u.id ≠ taskId) :
    statusOf (l1 ++ t :: l2) taskId = some t.status := by
  induction l1 with
  | nil => simpa using statusOf_cons_of_pos t l2 taskId ht
  | cons u l1' ih =>
    rw [List.cons_append, statusOf_cons_of_neg u _ taskId (hl1 u (List.mem_cons_self u l1'))]
    exact ih (fun v hv => hl1 v (List.mem_cons_of_mem _ hv))

lemma TasksInv_update_nonfail (now : String) (s s' : ConsortiumState) (failed : List String)
    (bt : BuildTask) (rem : List BuildTask)
    (hinv : TasksInv s failed (bt :: rem))
    (hnodup : ((bt :: rem).map BuildTask.id).Nodup)
    (f : Task → Task) (hid : ∀ t, (f t).id = t.id)
    (hstat : ∀ t, (f t).status ≠ TaskStatus.failed)
    (hupd : updateTask now s bt.id f = .ok s') :
    TasksInv s' failed rem := by
  obtain ⟨hinv1, hinv2, hinv3⟩ := hinv
  unfold updateTask at hupd
  rcases hset : setTaskStatus s.tasks bt.id f with _ | ts
  · rw [hset] at hupd
    cases hupd
  · rw [hset] at hupd
    cases hupd
    obtain ⟨l1, t, l2, hdec1, hdec2, hdec3, hdec4⟩ := setTaskStatus_decomp s.tasks bt.id f ts hset
    have hpend : t.status = TaskStatus.pending := by
      have hh := hinv3 bt (List.mem_cons_self bt rem)
      rw [hdec1, statusOf_append_first l1 t l2 bt.id hdec3 hdec4] at hh
      exact (Option.some.injEq _ _).mp hh
    have htasks : (saveState now { s with tasks := ts }).tasks = l1 ++ f t :: l2 := by
      simp [saveState, hdec2]
    refine ⟨?_, ?_, ?_⟩
    · intro hfne
      obtain ⟨u, hu, hust⟩ := hinv1 hfne
      rw [hdec1] at hu
      rcases List.mem_append.mp hu with hu | hu
      · exact ⟨u, by rw [htasks]; exact List.mem_append_left _ hu, hust⟩
      · rcases List.mem_cons.mp hu with hu | hu
        · subst hu
          rw [hpend] at hust
          cases hust
        · exact ⟨u, by rw [htasks]; exact List.mem_append_right _ (List.mem_cons_of_mem _ hu), hust⟩
    · intro u hu hust
      rw [htasks] at hu
      rcases List.mem_append.mp hu with hu | hu
      · exact hinv2 u (by rw [hdec1]; exact List.mem_append_left _ hu) hust
      · rcases List.mem_cons.mp hu with hu | hu
        · subst hu
          exact absurd hust (hstat t)
        · exact hinv2 u (by rw [hdec1]; exact List.mem_append_right _ (List.mem_cons_of_mem _ hu)) hust
    · intro bt' hbt'
      have hne : bt'.id ≠ bt.id := by
        intro hcc
        have hx := hnodup
        rw [List.map_cons] at hx
        exact (List.nodup_cons.mp hx).1 (hcc ▸ List.mem_map_of_mem BuildTask.id hbt')
      have heq : statusOf (saveState now { s with tasks := ts }).tasks bt'.id =
          statusOf s.tasks bt'.id := by
        have := statusOf_setTaskStatus_ne s.tasks ts bt.id bt'.id f hid hne hset
        simpa [saveState] using this
      rw [heq]
      exact hinv3 bt' (List.mem_cons_of_mem _ hbt')

lemma TasksInv_update_fail (now : String) (s s' : ConsortiumState) (failed : List String)
    (bt : BuildTask) (rem : List BuildTask)
    (hinv : TasksInv s failed (bt :: rem))
    (hnodup : ((bt :: rem).map BuildTask.id).Nodup)
    (f : Task → Task) (hid : ∀ t, (f t).id = t.id)
    (hstat : ∀ t, (f t).status = TaskStatus.failed)
    (hupd : updateTask now s bt.id f = .ok s') :
    TasksInv s' (failed ++ [bt.id]) rem := by
  obtain ⟨hinv1, hinv2, hinv3⟩ := hinv
  unfold updateTask at hupd
  rcases hset : setTaskStatus s.tasks bt.id f with _ | ts
  · rw [hset] at hupd
    cases hupd
  · rw [hset] at hupd
    cases hupd
    obtain ⟨l1, t, l2, hdec1, hdec2, hdec3, hdec4⟩ := setTaskStatus_decomp s.tasks bt.id f ts hset
    have htasks : (saveState now { s with tasks := ts }).tasks = l1 ++ f t :: l2 := by
      simp [saveState, hdec2]
    refine ⟨?_, ?_, ?_⟩
    · intro _
      refine ⟨f t, by rw [htasks]; exact List.mem_append_right _ (List.mem_cons_self _ _), hstat t⟩
    · intro u _ _
      simp
    · intro bt' hbt'
      have hne : bt'.id ≠ bt.id := by
        intro hcc
        have hx := hnodup
        rw [List.map_cons] at hx
        exact (List.nodup_cons.mp hx).1 (hcc ▸ List.mem_map_of_mem BuildTask.id hbt')
      have heq : statusOf (saveState now { s with tasks := ts }).tasks bt'.id =
          statusOf s.tasks bt'.id := by
        have := statusOf_setTaskStatus_ne s.tasks ts bt.id bt'.id f hid hne hset
        simpa [saveState] using this
      rw [heq]
      exact hinv3 bt' (List.mem_cons_of_mem _ hbt')

lemma mem_of_statusOf_eq_some (tasks : List Task) (j : String) (c : TaskStatus)
    (h : statusOf tasks j = some c) : j ∈ tasks.map Task.id := by
  unfold statusOf at h
  rcases hf : tasks.find? (fun t => t.id == j) with _ | t
  · rw [hf] at h
    cases h
  · have hp : t.id = j := by simpa using List.find?_some hf
    have hmem := List.mem_of_find?_eq_some hf
    exact hp ▸ List.mem_map_of_mem Task.id hmem

lemma runIndependentLoop_inv (now : String) (env : BuildTask → AgentResult)
    (ps : List BuildTask) :
    ∀ (rest : List BuildTask) (s : ConsortiumState) (failed : List String)
      (acc' : ConsortiumState × List String),
      TasksInv s failed (ps ++ rest) →
      ((ps ++ rest).map BuildTask.id).Nodup →
      runIndependentLoop now env (s, failed) ps = .ok acc' →
      TasksInv acc'.1 acc'.2 rest := by
  induction ps with
  | nil =>
    intro rest s failed acc' hinv hnodup h
    cases h
    simpa using hinv
  | cons bt ps' ih =>
    intro rest s failed acc' hinv hnodup h
    have hpendbt : statusOf s.tasks bt.id = some TaskStatus.pending :=
      hinv.2.2 bt (List.mem_cons_self bt (ps' ++ rest))
    obtain ⟨ts, hset⟩ := setTaskStatus_some_of_mem s.tasks bt.id
      (if (env bt).success then completeTask (env bt).output else failTask (env bt).error)
      (mem_of_statusOf_eq_some s.tasks bt.id TaskStatus.pending hpendbt)
    have hinv' : TasksInv s failed (bt :: (ps' ++ rest)) := by simpa using hinv
    have hnodup' : ((bt :: (ps' ++ rest)).map BuildTask.id).Nodup := by simpa using hnodup
    have hnodupTail : ((ps' ++ rest).map BuildTask.id).Nodup := by
      have hx := hnodup'
      rw [List.map_cons] at hx
      exact hx.of_cons
    rcases hsucc : (env bt).success with _ | _
    · obtain ⟨ts2, hset2⟩ := setTaskStatus_some_of_mem s.tasks bt.id
        (failTask (env bt).error)
        (mem_of_statusOf_eq_some s.tasks bt.id TaskStatus.pending hpendbt)
      have hupd : updateTask now s bt.id (failTask (env bt).error) =
          .ok (saveState now { s with tasks := ts2 }) := by
        simp [updateTask, hset2]
      rw [runIndependentLoop, hsucc] at h
      simp only [Bool.false_eq_true, if_false, hupd] at h
      exact ih rest _ _ acc'
        (TasksInv_update_fail now s _ failed bt (ps' ++ rest) hinv' hnodup'
          (failTask (env bt).error) (fun t => rfl) (fun t => rfl) hupd)
        hnodupTail h
    · obtain ⟨ts2, hset2⟩ := setTaskStatus_some_of_mem s.tasks bt.id
        (completeTask (env bt).output)
        (mem_of_statusOf_eq_some s.tasks bt.id TaskStatus.pending hpendbt)
      have hupd : updateTask now s bt.id (completeTask (env bt).output) =
          .ok (saveState now { s with tasks := ts2 }) := by
        simp [updateTask, hset2]
      rw [runIndependentLoop, hsucc] at h
      simp only [if_true, hupd] at h
      exact ih rest _ _ acc'
        (TasksInv_update_nonfail now s _ failed bt (ps' ++ rest) hinv' hnodup'
          (completeTask (env bt).output) (fun t => rfl) (fun t => by simp [completeTask]) hupd)
        hnodupTail h

lemma runDependentLoop_inv (now : String) (env : BuildTask → AgentResult)
    (ps : List BuildTask) :
    ∀ (s : ConsortiumState) (failed : List String) (acc' : ConsortiumState × List String),
      TasksInv s failed ps →
      ((ps.map BuildTask.id)).Nodup →
      runDependentLoop now env (s, failed) ps = .ok acc' →
      TasksInv acc'.1 acc'.2 [] := by
  induction ps with
  | nil =>
    intro s failed acc' hinv _ h
    cases h
    exact hinv
  | cons bt ps' ih =>
    intro s failed acc' hinv hnodup h
    have hpendbt : statusOf s.tasks bt.id = some TaskStatus.pending :=
      hinv.2.2 bt (List.mem_cons_self bt ps')
    have hmem := mem_of_statusOf_eq_some s.tasks bt.id TaskStatus.pending hpendbt
    rw [runDependentLoop] at h
    rcases hstep : dependentStep now env (s, failed) bt with e | acc1
    · rw [hstep] at h
      cases h
    · rw [hstep] at h
      have hinv1 : TasksInv acc1.1 acc1.2 ps' := by
        unfold dependentStep at hstep
        split at hstep
        · obtain ⟨ts, hset⟩ := setTaskStatus_some_of_mem s.tasks bt.id blockTask hmem
          have hupd : updateTask now s bt.id blockTask =
              .ok (saveState now { s with tasks := ts }) := by
            simp [updateTask, hset]
          rw [hupd] at hstep
          cases hstep
          exact TasksInv_update_nonfail now s _ failed bt ps' hinv hnodup
            blockTask (fun t => rfl) (fun t => by simp [blockTask]) hupd
        · split at hstep
          · obtain ⟨ts, hset⟩ := setTaskStatus_some_of_mem s.tasks bt.id
              (completeTask (env bt).output) hmem
            have hupd : updateTask now s bt.id (completeTask (env bt).output) =
                .ok (saveState now { s with tasks := ts }) := by
              simp [updateTask, hset]
            rw [hupd] at hstep
            cases hstep
            exact TasksInv_update_nonfail now s _ failed bt ps' hinv hnodup
              (completeTask (env bt).output) (fun t => rfl)
              (fun t => by simp [completeTask]) hupd
          · obtain ⟨ts, hset⟩ := setTaskStatus_some_of_mem s.tasks bt.id
              (failTask (env bt).error) hmem
            have hupd : updateTask now s bt.id (failTask (env bt).error) =
                .ok (saveState now { s with tasks := ts }) := by
              simp [updateTask, hset]
            rw [hupd] at hstep
            cases hstep
            exact TasksInv_update_fail now s _ failed bt ps' hinv hnodup
              (failTask (env bt).error) (fun t => rfl) (fun t => rfl) hupd
      have hnodupTail : (ps'.map BuildTask.id).Nodup := by
        have hx := hnodup
        rw [List.map_cons] at hx
        exact hx.of_cons
      obtain ⟨s1, f1⟩ := acc1
      exact ih s1 f1 acc' hinv1 hnodupTail h

/-- C6: `runBuildPhase` reports phase failure (`success = false`) if
and only if at least one task record ended the pass with status
`failed`; in particular a pass where some tasks ended `blocked` but
none `failed` returns `success = true`.  Hypotheses: the effective
build-task ids are distinct, each has a pending task record after
creation, and no pre-existing record is already failed. -/
theorem runBuildPhase_failure_iff_failed_task (now : String) (s : ConsortiumState)
    (extracted : List BuildTask) (env : BuildTask → AgentResult)
    (sF : ConsortiumState) (success : Bool)
    (hnodup : ((effectiveTasks extracted).map BuildTask.id).Nodup)
    (hpend : ∀ bt ∈ effectiveTasks extracted,
      statusOf (buildInitialState now s extracted).tasks bt.id = some TaskStatus.pending)
    (hclean : ∀ t ∈ (buildInitialState now s extracted).tasks,
      t.status ≠ TaskStatus.failed)
    (hrun : runBuildPhase now s extracted env = .ok (sF, success)) :
    success = false ↔ ∃ t ∈ sF.tasks, t.status = TaskStatus.failed := by
  unfold runBuildPhase at hrun
  dsimp only at hrun
  rcases hind : runIndependentLoop now env (buildInitialState now s extracted, [])
      ((effectiveTasks extracted).filter (fun t => t.dependencies.length == 0)) with e | acc1
  · rw [hind] at hrun
    cases hrun
  · rw [hind] at hrun
    dsimp only at hrun
    obtain ⟨s1, f1⟩ := acc1
    rcases hdep : runDependentLoop now env (s1, f1)
        ((effectiveTasks extracted).filter (fun t => decide (t.dependencies.length > 0))) with e | acc2
    · rw [hdep] at hrun
      cases hrun
    · rw [hdep] at hrun
      obtain ⟨s2, f2⟩ := acc2
      dsimp only at hrun
      cases hrun
      have hfun : (fun t : BuildTask => decide (t.dependencies.length > 0)) =
          (fun t : BuildTask => !(t.dependencies.length == 0)) := by
        funext t
        cases t.dependencies.length <;> simp
      have hperm : ((effectiveTasks extracted).filter (fun t => t.dependencies.length == 0) ++
          (effectiveTasks extracted).filter (fun t => decide (t.dependencies.length > 0))).Perm
          (effectiveTasks extracted) := by
        rw [hfun]
        exact List.filter_append_perm _ _
      have hnodup2 : (((effectiveTasks extracted).filter (fun t => t.dependencies.length == 0) ++
          (effectiveTasks extracted).filter (fun t => decide (t.dependencies.length > 0))).map
            BuildTask.id).Nodup :=
        ((hperm.map BuildTask.id).nodup_iff).mpr hnodup
      have hinv0 : TasksInv (buildInitialState now s extracted) []
          ((effectiveTasks extracted).filter (fun t => t.dependencies.length == 0) ++
            (effectiveTasks extracted).filter (fun t => decide (t.dependencies.length > 0))) := by
        refine ⟨fun hf => absurd rfl hf, fun t ht hst => absurd hst (hclean t ht), ?_⟩
        intro bt hbt
        rcases List.mem_append.mp hbt with hbt | hbt
        · exact hpend bt (List.mem_filter.mp hbt).1
        · exact hpend bt (List.mem_filter.mp hbt).1
      have hinv1 := runIndependentLoop_inv now env
        ((effectiveTasks extracted).filter (fun t => t.dependencies.length == 0))
        ((effectiveTasks extracted).filter (fun t => decide (t.dependencies.length > 0)))
        (buildInitialState now s extracted) [] (s1, f1) hinv0 hnodup2 hind
      have hnodup3 : (((effectiveTasks extracted).filter
          (fun t => decide (t.dependencies.length > 0))).map BuildTask.id).Nodup := by
        refine List.Nodup.sublist ?_ hnodup2
        exact List.Sublist.map BuildTask.id (List.sublist_append_right _ _)
      have hfin := runDependentLoop_inv now env
        ((effectiveTasks extracted).filter (fun t => decide (t.dependencies.length > 0)))
        s1 f1 (sF, f2) hinv1 hnodup3 hdep
      constructor
      · intro hsf
        have hne : f2 ≠ [] := by
          intro hnil
          rw [hnil] at hsf
          simp at hsf
        exact hfin.1 hne
      · intro hex
        obtain ⟨t, ht, hst⟩ := hex
        have hne := hfin.2.1 t ht hst
        have hlen : f2.length ≠ 0 := by
          intro hzero
          exact hne (List.length_eq_zero.mp hzero)
        simpa using hlen

/-- A concrete one-task BUILD run whose only dawg unit fails. -/
def demoFailEnv : BuildTask → AgentResult :=
  fun _ => { success := false, output := "", error := some "boom" }

/-- The extracted task list of the failing demo run. -/
def demoFailExtracted : List BuildTask :=
  [{ id := "task-1", description := "build it", dependencies := [] }]

/-- The persisted document after the failing demo BUILD pass. -/
def demoFailFinal : ConsortiumState :=
  { initializeState "t0" "rc-6" "/w" "demo" none with
    phase := .BUILD
    updatedAt := "t1"
    tasks := [{ id := "task-1", description := "build it", status := .failed,
                blockedBy := some [], error := some "boom" }] }

/-- Witness for C6: the one-task run whose unit fails reports phase
failure, and its task record ends `failed`. -/
theorem runBuildPhase_failure_iff_failed_task_witness :
    (((effectiveTasks demoFailExtracted).map BuildTask.id).Nodup ∧
      (∀ bt ∈ effectiveTasks demoFailExtracted,
        statusOf (buildInitialState "t1" (initializeState "t0" "rc-6" "/w" "demo" none)
          demoFailExtracted).tasks bt.id = some TaskStatus.pending) ∧
      (∀ t ∈ (buildInitialState "t1" (initializeState "t0" "rc-6" "/w" "demo" none)
          demoFailExtracted).tasks, t.status ≠ TaskStatus.failed)) ∧
    runBuildPhase "t1" (initializeState "t0" "rc-6" "/w" "demo" none) demoFailExtracted
      demoFailEnv = .ok (demoFailFinal, false) ∧
    (false = false ↔ ∃ t ∈ demoFailFinal.tasks, t.status = TaskStatus.failed) :=
  ⟨⟨by decide, by decide, by decide⟩, rfl,
   runBuildPhase_failure_iff_failed_task "t1" (initializeState "t0" "rc-6" "/w" "demo" none)
     demoFailExtracted demoFailEnv demoFailFinal false
     (by decide) (by decide) (by decide) rfl⟩

/- ---------------------------------------------------------------------
   CI_CHECK phase (src/phases/ci-check.ts)
   --------------------------------------------------------------------- -/

/-- `CICheckResult` from src/phases/ci-check.ts. -/
structure CICheckResult where
  success : Bool
  ciPassed : Bool
  needsRetry : Bool
  error : Option String := none
deriving DecidableEq, Repr

/-- Classification produced by `checkCIStatus`. -/
inductive CIStatusKind where
  | success
  | failure
  | pending
deriving DecidableEq, Repr

/-- `CIStatus` from src/phases/ci-check.ts. -/
structure CIStatus where
  status : CIStatusKind
  details : String
deriving DecidableEq, Repr

/-- Environment of one `runCICheckPhase` call: the answers of the
external CI and git world.  `firstStatus` is the classification after
the first wait, `secondStatus` the re-check used when the first is
pending, `fixResult` the robot-king fix unit's outcome, `treeDirty`
whether `git status --porcelain` reports changes after the fix, `gitOk`
whether the git status/commit/push commands succeed, and
`gitErrorMessage` the exception text when they do not. -/
structure CIEnv where
  firstStatus : CIStatus
  secondStatus : CIStatus
  fixResult : AgentResult
  treeDirty : Bool
  gitOk : Bool
  gitErrorMessage : String
deriving DecidableEq, Repr

/-- Observable outcome of `runCICheckPhase`: the persisted document,
the returned result, and whether the fix unit was invoked. -/
structure CIOutcome where
  st : ConsortiumState
  result : CICheckResult
  fixAttempted : Bool
deriving DecidableEq, Repr

/-- `MAX_CI_ATTEMPTS` from src/phases/ci-check.ts. -/
def MAX_CI_ATTEMPTS : Nat := 3

/-- The fix-and-push tail of `runCICheckPhase`, reached when CI ended
in failure: run the robot-king fix unit, then commit/push when the
working tree changed, and increment the attempt counter whether or not
a real change was produced. -/
def ciFix (now : String) (s1 : ConsortiumState) (attempts : Nat) (env : CIEnv) : CIOutcome :=
  if !env.fixResult.success then
    { st := s1
      result := { success := false, ciPassed := false, needsRetry := false,
                  error := env.fixResult.error }
      fixAttempted := true }
  else if env.gitOk then
    if env.treeDirty then
      { st := saveState now { s1 with ciCheckAttempts := some (attempts + 1) }
        result := { success := true, ciPassed := false, needsRetry := true }
        fixAttempted := true }
    else
      { st := saveState now { s1 with ciCheckAttempts := some (attempts + 1) }
        result := { success := true, ciPassed := false, needsRetry := true }
        fixAttempted := true }
  else
    { st := s1
      result := { success := false, ciPassed := false, needsRetry := false,
                  error := some env.gitErrorMessage }
      fixAttempted := true }

/-- `runCICheckPhase` from src/phases/ci-check.ts: requires a PR,
records phase CI_CHECK, exits toward DONE without fixing once the
attempt counter has reached the maximum, waits for CI (a pending first
check is re-checked once; still pending means resume later), and on a
failure runs the bounded fix cycle. -/
def runCICheckPhase (now : String) (s : ConsortiumState) (env : CIEnv) : CIOutcome :=
  if s.prNumber = none then
    { st := s
      result := { success := false, ciPassed := false, needsRetry := false,
                  error := some "No PR found" }
      fixAttempted := false }
  else
    let s1 := updatePhaseRun now s .CI_CHECK
    let attempts := s.ciCheckAttempts.getD 0
    if attempts ≥ MAX_CI_ATTEMPTS then
      { st := s1
        result := { success := true, ciPassed := false, needsRetry := false }
        fixAttempted := false }
    else if env.firstStatus.status = .success then
      { st := s1
        result := { success := true, ciPassed := true, needsRetry := false }
        fixAttempted := false }
    else if env.firstStatus.status = .pending then
      if env.secondStatus.status = .success then
        { st := s1
          result := { success := true, ciPassed := true, needsRetry := false }
          fixAttempted := false }
      else if env.secondStatus.status = .pending then
        { st := s1
          result := { success := true, ciPassed := false, needsRetry := true }
          fixAttempted := false }
      else
        ciFix now s1 attempts env
    else
      ciFix now s1 attempts env

lemma ciFix_counter_le (now : String) (s1 : ConsortiumState) (attempts : Nat) (env : CIEnv)
    (hlt : attempts < MAX_CI_ATTEMPTS)
    (hcounter : s1.ciCheckAttempts.getD 0 ≤ MAX_CI_ATTEMPTS) :
    (ciFix now s1 attempts env).st.ciCheckAttempts.getD 0 ≤ MAX_CI_ATTEMPTS := by
  unfold ciFix
  split_ifs <;> simp [saveState] <;> omega

/-- C4: with a PR present, (1) once the persisted attempt counter has
reached 3 the phase returns `success = true`, `needsRetry = false`
without invoking the fix unit and without changing the counter; (2) on
every failed fix cycle (CI reports failure — directly or after the
pending re-check — the fix unit succeeds and the git commands succeed)
the counter increments by exactly one and the phase asks to re-enter,
whether or not the fix produced a working-tree change; and (3) the
counter the phase persists never exceeds 3 (given it starts at most
3). -/
theorem ciCheckAttempts_bounded_increment (now : String) (s : ConsortiumState)
    (env : CIEnv) (pn : Nat) (hpr : s.prNumber = some pn) :
    (s.ciCheckAttempts.getD 0 ≥ MAX_CI_ATTEMPTS →
      runCICheckPhase now s env =
        { st := updatePhaseRun now s .CI_CHECK
          result := { success := true, ciPassed := false, needsRetry := false }
          fixAttempted := false }) ∧
    (s.ciCheckAttempts.getD 0 < MAX_CI_ATTEMPTS →
      (env.firstStatus.status = .failure ∨
        (env.firstStatus.status = .pending ∧ env.secondStatus.status = .failure)) →
      env.fixResult.success = true → env.gitOk = true →
      (runCICheckPhase now s env).st.ciCheckAttempts = some (s.ciCheckAttempts.getD 0 + 1) ∧
        (runCICheckPhase now s env).result.needsRetry = true ∧
        (runCICheckPhase now s env).fixAttempted = true) ∧
    (s.ciCheckAttempts.getD 0 ≤ MAX_CI_ATTEMPTS →
      (runCICheckPhase now s env).st.ciCheckAttempts.getD 0 ≤ MAX_CI_ATTEMPTS) := by
  have hprne : ¬(s.prNumber = none) := by simp [hpr]
  refine ⟨?_, ?_, ?_⟩
  · intro hge
    simp [runCICheckPhase, hprne, hge]
  · intro hlt hfailure hfix hgit
    have hnge : ¬(s.ciCheckAttempts.getD 0 ≥ MAX_CI_ATTEMPTS) := by omega
    rcases hfailure with hf | ⟨hf1, hf2⟩
    · have hns : ¬(env.firstStatus.status = CIStatusKind.success) := by simp [hf]
      have hnp : ¬(env.firstStatus.status = CIStatusKind.pending) := by simp [hf]
      rcases hdirty : env.treeDirty with _ | _ <;>
        simp [runCICheckPhase, hprne, hnge, hns, hnp, ciFix, hfix, hgit, hdirty,
          saveState, updatePhaseRun]
    · have hns : ¬(env.firstStatus.status = CIStatusKind.success) := by simp [hf1]
      have hns2 : ¬(env.secondStatus.status = CIStatusKind.success) := by simp [hf2]
      have hnp2 : ¬(env.secondStatus.status = CIStatusKind.pending) := by simp [hf2]
      rcases hdirty : env.treeDirty with _ | _ <;>
        simp [runCICheckPhase, hprne, hnge, hns, hf1, hns2, hnp2, ciFix, hfix, hgit,
          hdirty, saveState, updatePhaseRun]
  · intro hle
    unfold runCICheckPhase
    rw [if_neg hprne]
    dsimp only
    have hcounter1 : (updatePhaseRun now s .CI_CHECK).ciCheckAttempts.getD 0 ≤
        MAX_CI_ATTEMPTS := by
      simpa [updatePhaseRun, saveState] using hle
    by_cases hge : s.ciCheckAttempts.getD 0 ≥ MAX_CI_ATTEMPTS
    · rw [if_pos hge]
      exact hcounter1
    · rw [if_neg hge]
      by_cases h1 : env.firstStatus.status = CIStatusKind.success
      · rw [if_pos h1]
        exact hcounter1
      · rw [if_neg h1]
        by_cases h2 : env.firstStatus.status = CIStatusKind.pending
        · rw [if_pos h2]
          by_cases h3 : env.secondStatus.status = CIStatusKind.success
          · rw [if_pos h3]
            exact hcounter1
          · rw [if_neg h3]
            by_cases h4 : env.secondStatus.status = CIStatusKind.pending
            · rw [if_pos h4]
              exact hcounter1
            · rw [if_neg h4]
              exact ciFix_counter_le now _ _ env (by omega) hcounter1
        · rw [if_neg h2]
          exact ciFix_counter_le now _ _ env (by omega) hcounter1

/-- Witness for C4: a failed cycle at attempt 1 increments the counter
to 2 and asks to re-enter. -/
theorem ciCheckAttempts_bounded_increment_witness :
    (({ initializeState "t0" "rc-7" "/w" "demo" none with
          prNumber := some 5, ciCheckAttempts := some 1 } : ConsortiumState).prNumber =
        some 5 ∧
      ({ initializeState "t0" "rc-7" "/w" "demo" none with
          prNumber := some 5, ciCheckAttempts := some 1 } : ConsortiumState).ciCheckAttempts.getD 0 <
        MAX_CI_ATTEMPTS) ∧
    ((runCICheckPhase "t1"
        { initializeState "t0" "rc-7" "/w" "demo" none with
          prNumber := some 5, ciCheckAttempts := some 1 }
        { firstStatus := { status := .failure, details := "lint" }
          secondStatus := { status := .failure, details := "lint" }
          fixResult := { success := true, output := "fixed" }
          treeDirty := false, gitOk := true, gitErrorMessage := "" }).st.ciCheckAttempts =
        some 2 ∧
      (runCICheckPhase "t1"
        { initializeState "t0" "rc-7" "/w" "demo" none with
          prNumber := some 5, ciCheckAttempts := some 1 }
        { firstStatus := { status := .failure, details := "lint" }
          secondStatus := { status := .failure, details := "lint" }
          fixResult := { success := true, output := "fixed" }
          treeDirty := false, gitOk := true, gitErrorMessage := "" }).result.needsRetry = true ∧
      (runCICheckPhase "t1"
        { initializeState "t0" "rc-7" "/w" "demo" none with
          prNumber := some 5, ciCheckAttempts := some 1 }
        { firstStatus := { status := .failure, details := "lint" }
          secondStatus := { status := .failure, details := "lint" }
          fixResult := { success := true, output := "fixed" }
          treeDirty := false, gitOk := true, gitErrorMessage := "" }).fixAttempted = true) :=
  ⟨⟨rfl, by decide⟩,
   (ciCheckAttempts_bounded_increment "t1"
       { initializeState "t0" "rc-7" "/w" "demo" none with
         prNumber := some 5, ciCheckAttempts := some 1 }
       { firstStatus := { status := .failure, details := "lint" }
         secondStatus := { status := .failure, details := "lint" }
         fixResult := { success := true, output := "fixed" }
         treeDirty := false, gitOk := true, gitErrorMessage := "" } 5 rfl).2.1
     (by decide) (Or.inl rfl) rfl rfl⟩

/- ---------------------------------------------------------------------
   CLI start command (src/cli.ts)
   --------------------------------------------------------------------- -/

/-- Decision of the `start` command action: refuse (the
`process.exit(1)` path, leaving the persisted run untouched) or
initialize a fresh run. -/
inductive StartDecision where
  | refused (phase : Phase)
  | initialized (st : ConsortiumState)
deriving DecidableEq, Repr

/-- The active-consortium guard plus initialization of the `start`
command action (src/cli.ts): when `loadState` finds a run whose phase
is neither DONE nor FAILED, exit without initializing; otherwise remove
any old state directory and create the new run. -/
def startCommand (now newId workingDir description : String) (branchName : Option String)
    (existing : Option ConsortiumState) : StartDecision :=
  match existing with
  | some s =>
    if s.phase ≠ Phase.DONE ∧ s.phase ≠ Phase.FAILED then
      .refused s.phase
    else
      .initialized (initializeState now newId workingDir description branchName)
  | none => .initialized (initializeState now newId workingDir description branchName)

/-- C7: the `start` command initializes a new run exactly when no run
is persisted or the persisted run's phase is DONE or FAILED; when a
persisted run is in any other phase, `start` refuses and leaves the
existing state untouched. -/
theorem start_requires_no_active_run (now newId workingDir description : String)
    (branchName : Option String) (existing : Option ConsortiumState) :
    ((∃ st', startCommand now newId workingDir description branchName existing =
        .initialized st') ↔
      (existing = none ∨
        ∃ s, existing = some s ∧ (s.phase = Phase.DONE ∨ s.phase = Phase.FAILED))) ∧
    (∀ s, existing = some s → s.phase ≠ Phase.DONE → s.phase ≠ Phase.FAILED →
      startCommand now newId workingDir description branchName existing = .refused s.phase) := by
  constructor
  · cases existing with
    | none =>
      simp [startCommand]
    | some s =>
      by_cases hd : s.phase = Phase.DONE
      · simp [startCommand, hd]
      · by_cases hf : s.phase = Phase.FAILED
        · simp [startCommand, hd, hf]
        · simp [startCommand, hd, hf]
  · intro s hs hd hf
    subst hs
    simp [startCommand, hd, hf]

/-- Witness for C7: a persisted run in phase BUILD makes `start`
refuse. -/
theorem start_requires_no_active_run_witness :
    ({ initializeState "t0" "rc-8" "/w" "demo" none with
        phase := Phase.BUILD } : ConsortiumState).phase ≠ Phase.DONE ∧
    startCommand "t1" "rc-9" "/w" "new task" none
      (some { initializeState "t0" "rc-8" "/w" "demo" none with phase := Phase.BUILD }) =
      .refused Phase.BUILD :=
  ⟨by decide,
   (start_requires_no_active_run "t1" "rc-9" "/w" "new task" none
       (some { initializeState "t0" "rc-8" "/w" "demo" none with phase := Phase.BUILD })).2
     { initializeState "t0" "rc-8" "/w" "demo" none with phase := Phase.BUILD }
     rfl (by decide) (by decide)⟩

end RobotConsortium
